import Mathlib

set_option maxRecDepth 100000

/-!
Verification of the NIST SPHERE codec (`sphere.py`): a shallow embedding of the
header codec, the read stream (`Sphere_read`) and the write stream
(`Sphere_write`), together with theorems settling the frozen claims.

Modelling conventions:
* `PyStr` (`List Char`) stands both for Python `bytes` and `str`; the code's
  only encoding is ASCII, and every encode/decode point checks `allAscii`
  exactly where `encode('ascii')` / `decode('ascii')` appears in the source.
* Python `int` is `Int`; `//` is floor division (`Int.fdiv`).
* A Python `float` value is represented by its canonical text (`str(x)`), the
  exact characters the writer emits with `f'{name} -r {value}'`; `float(t)`
  of a canonical text returns the same float, so on every value that the
  codec itself produced this representation is exact.  The reader's
  `float(...)` call is modelled as a syntactic literal check keeping the text.
* Exceptions are explicit values (`PyExc`); stateful methods return their
  mutated receiver together with `Option PyExc`, because Python's `raise`
  leaves earlier mutations (e.g. `dict.setdefault`, partial file writes) in
  place, and several claims are about exactly that.
* The byte source of a read stream logs its `seek`/`read` calls so that
  "performs no I/O" claims are statable.
-/

/-- Python strings/bytes, as a list of (ASCII-ranged) characters. -/
abbrev PyStr := List Char

/-- All characters in the 7-bit range accepted by `encode('ascii')`/`decode('ascii')`. -/
def allAscii (s : PyStr) : Bool := s.all (fun c => c.toNat ≤ 127)

/-- The whitespace set stripped by Python `str.strip`/`rstrip` on ASCII text. -/
def isPySpace (c : Char) : Bool :=
  c = ' ' || c = '\t' || c = '\n' || c = '\x0d' || c = '\x0b' || c = '\x0c'

/-- Python `s.rstrip()`. -/
def pyRstrip (s : PyStr) : PyStr := (s.reverse.dropWhile isPySpace).reverse

/-- Python `s.strip()`. -/
def pyStrip (s : PyStr) : PyStr := pyRstrip (s.dropWhile isPySpace)

/-- Python `s.lstrip(cs)`: drop leading characters belonging to the set `cs`. -/
def pyLstripSet (cs : List Char) (s : PyStr) : PyStr := s.dropWhile (fun c => cs.contains c)

/-- Split off everything before the first occurrence of `c`; the second
component is the remainder after `c` when `c` occurs. -/
def breakChar (c : Char) : PyStr → PyStr × Option PyStr
  | [] => ([], none)
  | x :: xs =>
    if x = c then ([], some xs)
    else
      let r := breakChar c xs
      (x :: r.1, r.2)

/-- `line.split(';', 1)[0]`: the part of the line before any comment. -/
def pySplitSemi (s : PyStr) : PyStr := (breakChar ';' s).1

/-- Python `s.split(' ', 2)` (maxsplit 2, empty pieces kept). -/
def pySplitSpace2 (s : PyStr) : List PyStr :=
  let r1 := breakChar ' ' s
  match r1.2 with
  | none => [r1.1]
  | some r =>
    let r2 := breakChar ' ' r
    match r2.2 with
    | none => [r1.1, r2.1]
    | some r3 => [r1.1, r2.1, r3]

/-- Worker for `pySplitlines`; `acc` holds the current line reversed. -/
def splitlinesAux : PyStr → PyStr → List PyStr
  | [], acc => if acc.isEmpty then [] else [acc.reverse]
  | '\n' :: rest, acc => acc.reverse :: splitlinesAux rest []
  | '\x0d' :: '\n' :: rest, acc => acc.reverse :: splitlinesAux rest []
  | '\x0d' :: rest, acc => acc.reverse :: splitlinesAux rest []
  | c :: rest, acc => splitlinesAux rest (c :: acc)

/-- Python `bytes.splitlines()` (terminators `\n`, `\r`, `\r\n`; no trailing
empty line for a trailing terminator). -/
def pySplitlines (s : PyStr) : List PyStr := splitlinesAux s []

/-- Decimal digit test (`'0'..'9'`). -/
def isDigitCh (c : Char) : Bool := 48 ≤ c.toNat && c.toNat ≤ 57

/-- Fold decimal digits onto an accumulator; `none` on a non-digit. -/
def digitsToNatAux : Nat → PyStr → Option Nat
  | a, [] => some a
  | a, c :: cs => if isDigitCh c then digitsToNatAux (a * 10 + (c.toNat - 48)) cs else none

/-- Value of a non-empty all-digit string. -/
def digitsToNat : PyStr → Option Nat
  | [] => none
  | l => digitsToNatAux 0 l

/-- Python `int(s)`: strip surrounding whitespace, optional sign, decimal
digits.  (Python additionally allows `_` grouping; no input of the codec's
own making contains one.) -/
def pyInt (s : PyStr) : Option Int :=
  match pyStrip s with
  | '+' :: rest => (digitsToNat rest).map Int.ofNat
  | '-' :: rest => (digitsToNat rest).map (fun n => -(n : Int))
  | t => (digitsToNat t).map Int.ofNat

/-- Decimal digits of `n`, most significant first, prepended to `acc`;
`fuel` bounds the recursion (any `fuel > n` is exact). -/
def natToCharsAux : Nat → Nat → PyStr → PyStr
  | 0, _, acc => acc
  | fuel + 1, n, acc =>
    let d := Char.ofNat (48 + n % 10)
    if n / 10 = 0 then d :: acc else natToCharsAux fuel (n / 10) (d :: acc)

/-- Python `str(n)` for a natural number. -/
def natToChars (n : Nat) : PyStr := natToCharsAux (n + 1) n []

/-- Python `str(i)` for an integer. -/
def intToChars : Int → PyStr
  | .ofNat n => natToChars n
  | .negSucc m => '-' :: natToChars (m + 1)

/-- Python `s[:n]` for an integer bound (negative bounds drop from the end). -/
def pySliceTo (n : Int) (s : PyStr) : PyStr :=
  match n with
  | .ofNat k => s.take k
  | .negSucc m => s.take (s.length - (m + 1))

/-- Exponent part of a float literal: empty, or `e`/`E`, optional sign, digits. -/
def floatExpPart : PyStr → Bool
  | [] => true
  | 'e' :: r => floatExpDigits r
  | 'E' :: r => floatExpDigits r
  | _ => false
where
  floatExpDigits : PyStr → Bool
  | '+' :: d => !d.isEmpty && d.all isDigitCh
  | '-' :: d => !d.isEmpty && d.all isDigitCh
  | d => !d.isEmpty && d.all isDigitCh

/-- Body of a decimal float literal (digits, optional point, optional exponent). -/
def floatBody (l : PyStr) : Bool :=
  let ip := l.takeWhile isDigitCh
  let rest := l.dropWhile isDigitCh
  match rest with
  | [] => !ip.isEmpty
  | '.' :: r2 =>
    let fp := r2.takeWhile isDigitCh
    let rest2 := r2.dropWhile isDigitCh
    (!ip.isEmpty || !fp.isEmpty) && floatExpPart rest2
  | 'e' :: _ => !ip.isEmpty && floatExpPart rest
  | 'E' :: _ => !ip.isEmpty && floatExpPart rest
  | _ => false

/-- Acceptance test for Python `float(s)` restricted to finite decimal
literals (the canonical `str(float)` forms the writer emits; the `inf`/`nan`
spellings Python would additionally accept are outside every claim). -/
def pyFloatOk (s : PyStr) : Bool :=
  let t := pyStrip s
  match t with
  | '+' :: r => floatBody r
  | '-' :: r => floatBody r
  | r => floatBody r

/-- A header field value: Python `int`, `float` (by its canonical text),
`str`, or any other object (carried only by its type name; `setparams`
accepts arbitrary values and both `getparams` and `_write_header` branch on
`isinstance`). -/
inductive FieldValue where
  | vInt (i : Int)
  | vReal (tok : PyStr)
  | vStr (s : PyStr)
  | vOther (typeName : PyStr)
deriving DecidableEq

/-- The header mapping `_headinfo`: insertion-ordered, unique keys. -/
abbrev Dict := List (PyStr × FieldValue)

/-- `d[k]` as an option (first binding). -/
def dGet (d : Dict) (k : PyStr) : Option FieldValue :=
  match d with
  | [] => none
  | (k', v) :: rest => if k' = k then some v else dGet rest k

/-- `k in d`. -/
def dHas (d : Dict) (k : PyStr) : Bool := (dGet d k).isSome

/-- `d[k] = v`: replace in place when the key exists, else append. -/
def dSet (d : Dict) (k : PyStr) (v : FieldValue) : Dict :=
  match d with
  | [] => [(k, v)]
  | (k', v') :: rest => if k' = k then (k', v) :: rest else (k', v') :: dSet rest k v

/-- `d.setdefault(k, v)`: append only when the key is absent. -/
def dSetdefault (d : Dict) (k : PyStr) (v : FieldValue) : Dict :=
  if dHas d k then d else d ++ [(k, v)]

/-- `d.update(p)` (last write wins per key, insertion order of new keys kept). -/
def dUpdate (d : Dict) (p : Dict) : Dict := p.foldl (fun acc kv => dSet acc kv.1 kv.2) d

/-- Exceptions the modelled code can raise.  `sphereError` is the module's own
`sphere.Error`; the others are Python-language exceptions. -/
inductive PyExc where
  | sphereError (msg : String)
  | valueError
  | typeError
  | keyError (key : String)
  | attributeError (attr : String)
  | zeroDivisionError
  | unicodeDecodeError
  | unicodeEncodeError
  | osError
  | assertionError
deriving DecidableEq

/-- One logged operation on a read stream's byte source. -/
inductive FOp where
  | seek (arg : Int) (whence : Nat)
  | read (n : Int)
deriving DecidableEq

/-- A seekable byte source: contents, current offset, and the log of
`seek`/`read` calls issued to it (`tell` is not logged). -/
structure RFile where
  content : PyStr
  pos : Nat
  log : List FOp
deriving DecidableEq

/-- A fresh source positioned at the start. -/
def mkR (c : PyStr) : RFile := { content := c, pos := 0, log := [] }

/-- `f.read(n)`: up to `n` bytes from the current offset (all remaining bytes
when `n` is negative), advancing the offset. -/
def pyRead (f : RFile) (n : Int) : RFile × PyStr :=
  let avail := f.content.drop f.pos
  let out := if n < 0 then avail else avail.take n.toNat
  ({ f with pos := f.pos + out.length, log := f.log ++ [.read n] }, out)

/-- `f.seek(t, 0)` with a non-negative absolute target. -/
def pySeekAbs (f : RFile) (t : Nat) : RFile :=
  { f with pos := t, log := f.log ++ [.seek t 0] }

/-- `f.seek(off, 1)`: relative seek; a negative resulting offset raises. -/
def pySeekRel (f : RFile) (off : Int) : Except PyExc RFile :=
  let t : Int := (f.pos : Int) + off
  if t < 0 then .error .osError
  else .ok { f with pos := t.toNat, log := f.log ++ [.seek off 1] }

/-- The state of an open `Sphere_read`.  The class never defines
`_sampwidth` (only the `WaveLike_read` subclass does), which is why the
big-endian branch of `readframes` has no width to hand to
`audioop.byteswap`; see `readframes`. -/
structure SphereRead where
  file : RFile
  headinfo : Dict
  soundpos : Int
  dataSeekNeeded : Bool
  offset : Nat
  framesize : Int
deriving DecidableEq

/-- Python `a * b` for two header values when both are ints; any other
combination is modelled as a type error (`initfp` multiplies
`channel_count * sample_n_bytes`; every claim's scope has both as ints). -/
def pyMulII : FieldValue → FieldValue → Except PyExc Int
  | .vInt a, .vInt b => .ok (a * b)
  | _, _ => .error .typeError

/-- Decode one header field line (the loop body of `Sphere_read.initfp`):
strip any `;` comment, split into at most three space-separated pieces,
unpack `name, type, value` (a `< 3`-piece line raises `ValueError` from the
unpacking), dispatch on the type tag.  The `else` branch of the source reads
`raise Error('Invalid type flag in header: ' + line)` with `line : bytes`,
so building the message itself raises `TypeError` before the `Error` exists. -/
def decodeFieldLine (line : PyStr) : Except PyExc (PyStr × FieldValue) :=
  if !allAscii line then .error .unicodeDecodeError
  else
    let triple := pySplitSemi line
    match pySplitSpace2 triple with
    | [fieldName, fieldType, rawValue] =>
      let v := pyRstrip rawValue
      if ("-i".toList).isPrefixOf fieldType then
        match pyInt v with
        | some i => .ok (fieldName, .vInt i)
        | none => .error .valueError
      else if ("-r".toList).isPrefixOf fieldType then
        if pyFloatOk v then .ok (fieldName, .vReal v) else .error .valueError
      else if ("-s".toList).isPrefixOf fieldType then
        match pyInt (pyLstripSet ['-', 's'] fieldType) with
        | some n => .ok (fieldName, .vStr (pySliceTo n v))
        | none => .error .valueError
      else .error .typeError
    | _ => .error .valueError

/-- The header-line loop of `initfp`: fields accumulate in order until the
literal line `end_head`; running out of lines first is the for-`else`
`Error('header chunk missing')`. -/
def parseLines : List PyStr → Dict → RFile → Except PyExc SphereRead
  | [], _, _ => .error (.sphereError "header chunk missing")
  | line :: rest, hi, f =>
    if line = "end_head".toList then
      match dGet hi "channel_count".toList with
      | none => .error (.keyError "channel_count")
      | some cv =>
        match dGet hi "sample_n_bytes".toList with
        | none => .error (.keyError "sample_n_bytes")
        | some sv =>
          match pyMulII cv sv with
          | .error e => .error e
          | .ok fs =>
            .ok { file := f, headinfo := hi, soundpos := 0, dataSeekNeeded := false,
                  offset := f.pos, framesize := fs }
    else
      match decodeFieldLine line with
      | .error e => .error e
      | .ok kv => parseLines rest (dSet hi kv.1 kv.2) f

/-- `Sphere_read.initfp`: check the 8-byte magic, read the 8-byte decimal
header size, read `headsize - 16` bytes of field lines and fold them. -/
def initfp (f0 : RFile) : Except PyExc SphereRead :=
  let r1 := pyRead f0 8
  if r1.2 ≠ "NIST_1A\n".toList then
    .error (.sphereError "file does not start with NIST_1A id")
  else
    let r2 := pyRead r1.1 8
    match pyInt r2.2 with
    | none => .error .valueError
    | some headsize =>
      let r3 := pyRead r2.1 (headsize - 16)
      parseLines (pySplitlines r3.2) [] r3.1

/-- `Sphere_read.tell`. -/
def tellR (st : SphereRead) : Int := st.soundpos

/-- `Sphere_read.setpos`.  `pos < 0` short-circuits; otherwise the range
check looks `sample_count` up (a `KeyError` when the header never declared
it).  Comparing the position with a non-integer `sample_count` is modelled
as a type error (Python would compare numerically with a float; no claim's
scope has a non-integer `sample_count`). -/
def setpos (st : SphereRead) (pos : Int) : SphereRead × Option PyExc :=
  if pos < 0 then (st, some (.sphereError "position not in range"))
  else
    match dGet st.headinfo "sample_count".toList with
    | none => (st, some (.keyError "sample_count"))
    | some (.vInt sc) =>
      if pos > sc then (st, some (.sphereError "position not in range"))
      else ({ st with soundpos := pos, dataSeekNeeded := true }, none)
    | some _ => (st, some .typeError)

/-- The deferred-reseek prologue of `readframes`: seek to the data start,
then relatively by `soundpos * framesize` when that is non-zero; the flag is
cleared only after both seeks succeed. -/
def doSeekIfNeeded (st : SphereRead) : SphereRead × Option PyExc :=
  if st.dataSeekNeeded then
    let f1 := pySeekAbs st.file st.offset
    let p : Int := st.soundpos * st.framesize
    if p ≠ 0 then
      match pySeekRel f1 p with
      | .error e => ({ st with file := f1 }, some e)
      | .ok f2 => ({ st with file := f2, dataSeekNeeded := false }, none)
    else ({ st with file := f1, dataSeekNeeded := false }, none)
  else (st, none)

/-- Result of `readframes`: mutated stream, optional exception, data
(empty when an exception was raised). -/
structure RfOut where
  st : SphereRead
  exc : Option PyExc
  data : PyStr
deriving DecidableEq

/-- `Sphere_read.readframes`.  After the deferred reseek, `nframes == 0`
returns empty; otherwise read `nframes * framesize` bytes, then the
byte-order branch: `_headinfo['sample_n_bytes'] != 1 and sys.byteorder ==
'big'` — on that path the source calls `audioop.byteswap(data,
self._sampwidth)`, but `Sphere_read` never sets `_sampwidth` (only
`WaveLike_read.initfp` does), so the call raises `AttributeError`.
`_convert` is always `None` here.  Finally the position advances by
`len(data) // framesize` (a `ZeroDivisionError` when `framesize` is 0). -/
def readframes (st0 : SphereRead) (nframes : Int) (bigEndian : Bool) : RfOut :=
  match doSeekIfNeeded st0 with
  | (st, some e) => ⟨st, some e, []⟩
  | (st, none) =>
    if nframes = 0 then ⟨st, none, []⟩
    else
      let r := pyRead st.file (nframes * st.framesize)
      let st1 := { st with file := r.1 }
      match dGet st1.headinfo "sample_n_bytes".toList with
      | none => ⟨st1, some (.keyError "sample_n_bytes"), []⟩
      | some v =>
        if (v ≠ .vInt 1) && bigEndian then ⟨st1, some (.attributeError "_sampwidth"), []⟩
        else if st1.framesize = 0 then ⟨st1, some .zeroDivisionError, []⟩
        else
          ⟨{ st1 with soundpos := st1.soundpos + ((r.2.length : Int).fdiv st1.framesize) },
            none, r.2⟩

/-- A seekable byte sink: `write` overwrites in place at the current offset
(as `_patchheader` relies on) and extends the file at the end. -/
structure WFile where
  content : PyStr
  pos : Nat
deriving DecidableEq

/-- `f.write(data)` at the current offset. -/
def wwrite (f : WFile) (data : PyStr) : WFile :=
  { content := f.content.take f.pos ++ data ++ f.content.drop (f.pos + data.length),
    pos := f.pos + data.length }

/-- The state of a `Sphere_write`. -/
structure WriteState where
  file : WFile
  fileOpen : Bool
  headinfo : Dict
  nframeswritten : Int
  datawritten : Nat
  datalength : Int
  headerwritten : Bool
deriving DecidableEq

/-- `Sphere_write.initfp` on a fresh empty sink. -/
def freshW : WriteState :=
  { file := { content := [], pos := 0 }, fileOpen := true, headinfo := [],
    nframeswritten := 0, datawritten := 0, datalength := 0, headerwritten := false }

/-- Write `data` through the stream's sink. -/
def wwriteSt (st : WriteState) (data : PyStr) : WriteState :=
  { st with file := wwrite st.file data }

/-- `self._headinfo.get('sample_coding', 'pcm') in ('pcm', 'ulaw')`:
true when the key is absent (default `'pcm'`) or bound to one of the two
strings; a non-string value never equals either string. -/
def codingNeedsRate (hi : Dict) : Bool :=
  match dGet hi "sample_coding".toList with
  | none => true
  | some (.vStr s) => s = "pcm".toList || s = "ulaw".toList
  | some _ => false

/-- The text of a field line before its terminating newline. -/
def fieldBody (k : PyStr) (v : FieldValue) : PyStr :=
  match v with
  | .vInt i => k ++ " -i ".toList ++ intToChars i
  | .vReal t => k ++ " -r ".toList ++ t
  | .vStr s => k ++ " -s".toList ++ natToChars s.length ++ [' '] ++ s
  | .vOther _ => []

/-- The field line `_write_header` formats for one binding (`vOther` values
fail every `isinstance` test and are silently skipped; that case is handled
by the caller). -/
def fieldLine (k : PyStr) (v : FieldValue) : PyStr :=
  match v with
  | .vOther _ => []
  | _ => fieldBody k v ++ ['\n']

/-- The field loop of `_write_header`: each formatted line is
`encode('ascii')`-ed and written in turn, so a non-ASCII field raises after
the earlier fields are already in the sink. -/
def writeFieldsLoop : Dict → WriteState → WriteState × Option PyExc
  | [], st => (st, none)
  | (k, v) :: rest, st =>
    match v with
    | .vOther _ => writeFieldsLoop rest st
    | _ =>
      let line := fieldLine k v
      if allAscii line then writeFieldsLoop rest (wwriteSt st line)
      else (st, some .unicodeEncodeError)

/-- `Sphere_write._write_header(initlength)`.  Magic and the fixed `1024`
size field first; then `sample_count` is computed from `initlength` only
when the mapping does not already have that key; `_datalength` is recorded;
the fields are emitted in insertion order; trailer `end_head` plus four
blank lines; space padding up to 1024 bytes (none when the fields overflow).
The size computations need integer `channel_count`, `sample_n_bytes` and
`sample_count`; non-integer values are modelled as a type error (Python
would go on with a float-valued length; no claim's scope has one). -/
def writeHeaderW (st0 : WriteState) (initlength : Nat) : WriteState × Option PyExc :=
  let st := wwriteSt st0 ("NIST_1A\n   1024\n".toList)
  let scSet : Except PyExc Dict :=
    if dHas st.headinfo "sample_count".toList then .ok st.headinfo
    else
      match dGet st.headinfo "channel_count".toList with
      | none => .error (.keyError "channel_count")
      | some cv =>
        match dGet st.headinfo "sample_n_bytes".toList with
        | none => .error (.keyError "sample_n_bytes")
        | some sv =>
          match pyMulII cv sv with
          | .error e => .error e
          | .ok fs =>
            if fs = 0 then .error .zeroDivisionError
            else .ok (st.headinfo ++
              [("sample_count".toList, .vInt ((initlength : Int).fdiv fs))])
  match scSet with
  | .error e => (st, some e)
  | .ok hi =>
    let dl : Except PyExc Int :=
      match dGet hi "sample_count".toList, dGet hi "channel_count".toList,
            dGet hi "sample_n_bytes".toList with
      | some (.vInt sc), some (.vInt cc), some (.vInt wb) => .ok (sc * cc * wb)
      | none, _, _ => .error (.keyError "sample_count")
      | _, none, _ => .error (.keyError "channel_count")
      | _, _, none => .error (.keyError "sample_n_bytes")
      | _, _, _ => .error .typeError
    match dl with
    | .error e => ({ st with headinfo := hi }, some e)
    | .ok dlen =>
      let st := { st with headinfo := hi, datalength := dlen }
      match writeFieldsLoop hi st with
      | (st, some e) => (st, some e)
      | (st, none) =>
        let st := wwriteSt st ("end_head\n\n\n\n\n".toList)
        let curpos := st.file.pos
        let st := wwriteSt st (List.replicate (1024 - curpos) ' ')
        ({ st with headerwritten := true }, none)

/-- `Sphere_write._ensure_header_written(datasize)`: the three
missing-parameter checks, each raising its own `Error` before anything is
written, then `_write_header`. -/
def ensureHeaderW (st : WriteState) (datasize : Nat) : WriteState × Option PyExc :=
  if st.headerwritten then (st, none)
  else if !dHas st.headinfo "channel_count".toList then
    (st, some (.sphereError "# channels not specified"))
  else if !dHas st.headinfo "sample_n_bytes".toList then
    (st, some (.sphereError "# sample bytes not specified"))
  else if codingNeedsRate st.headinfo && !dHas st.headinfo "sample_rate".toList then
    (st, some (.sphereError "sampling rate not specified"))
  else writeHeaderW st datasize

/-- `Sphere_write.writeframesraw(data)`.  First `setdefault('sample_count',
self._datalength)` mutates the mapping, then `_ensure_header_written`,
then `nframes = len(data) // (channel_count * sample_n_bytes)`; `_convert`
is always `None`; the byte-order branch references the never-assigned
`self._sampwidth`, so a big-endian host with a multi-byte width raises
`AttributeError`; finally the bytes are written and the counters advance. -/
def writeframesrawW (st0 : WriteState) (data : PyStr) (bigEndian : Bool) :
    WriteState × Option PyExc :=
  let st := { st0 with
    headinfo := dSetdefault st0.headinfo "sample_count".toList (.vInt st0.datalength) }
  match ensureHeaderW st data.length with
  | (st, some e) => (st, some e)
  | (st, none) =>
    match dGet st.headinfo "channel_count".toList, dGet st.headinfo "sample_n_bytes".toList with
    | none, _ => (st, some (.keyError "channel_count"))
    | _, none => (st, some (.keyError "sample_n_bytes"))
    | some cv, some sv =>
      match pyMulII cv sv with
      | .error e => (st, some e)
      | .ok fs =>
        if fs = 0 then (st, some .zeroDivisionError)
        else
          let nframes := (data.length : Int).fdiv fs
          if (sv ≠ FieldValue.vInt 1) && bigEndian then
            (st, some (.attributeError "_sampwidth"))
          else
            let st := wwriteSt st data
            ({ st with datawritten := st.datawritten + data.length,
                       nframeswritten := st.nframeswritten + nframes }, none)

/-- `Sphere_write.setparams(params)`: refused once any data byte was
written; otherwise `dict.update` semantics. -/
def setparamsW (st : WriteState) (p : Dict) : WriteState × Option PyExc :=
  if st.datawritten ≠ 0 then
    (st, some (.sphereError "cannot change parameters after starting to write"))
  else ({ st with headinfo := dUpdate st.headinfo p }, none)

/-- `Sphere_write.getparams`.  Both membership checks in the source
(`all(key not in ...)` and the `and` of the two `not in` tests) fire only
when `sample_n_bytes` and `channel_count` are BOTH absent; then the
`sample_rate` check, then the per-value kind check.  The final
`namedtuple(...)` packaging is modelled as the mapping itself. -/
def getparamsW (hi : Dict) : Except PyExc Dict :=
  if !dHas hi "sample_n_bytes".toList && !dHas hi "channel_count".toList then
    .error (.sphereError "not all parameters set (sample_n_bytes, channel_count are required.)")
  else if !dHas hi "sample_n_bytes".toList && !dHas hi "channel_count".toList then
    .error (.sphereError "not all parameters set (sample_n_bytes, channel_count are always required.)")
  else if codingNeedsRate hi && !dHas hi "sample_rate".toList then
    .error (.sphereError "not all parameters set (sample_rate is required if sample_coding is pcm or ulaw)")
  else if hi.any (fun kv => match kv.2 with | .vOther _ => true | _ => false) then
    .error (.sphereError "params value must be int, float or str")
  else .ok hi

/-- `Sphere_write._patchheader`: no-op when declared and actual byte counts
agree; otherwise remember the write offset, seek to 0, re-run
`_write_header(self._datawritten)`, seek back, and set
`_datalength := _datawritten`. -/
def patchheaderW (st : WriteState) : WriteState × Option PyExc :=
  if !st.headerwritten then (st, some .assertionError)
  else if (st.datawritten : Int) = st.datalength then (st, none)
  else
    let curpos := st.file.pos
    let st := { st with file := { st.file with pos := 0 } }
    match writeHeaderW st st.datawritten with
    | (st, some e) => (st, some e)
    | (st, none) =>
      ({ st with file := { st.file with pos := curpos },
                 datalength := (st.datawritten : Int) }, none)

/-- `Sphere_write.close` (the inherited `wave.Wave_write.close` body with
this class's `_ensure_header_written`/`_patchheader` through dynamic
dispatch): when still open, materialize the header for zero data if needed,
patch when `datalength != datawritten`, flush; the `finally` block closes
the stream even when the body raised. -/
def closeW (st : WriteState) : WriteState × Option PyExc :=
  if st.fileOpen then
    match ensureHeaderW st 0 with
    | (st1, some e) => ({ st1 with fileOpen := false }, some e)
    | (st1, none) =>
      if st1.datalength ≠ (st1.datawritten : Int) then
        match patchheaderW st1 with
        | (st2, e) => ({ st2 with fileOpen := false }, e)
      else ({ st1 with fileOpen := false }, none)
  else (st, none)

/-- `Sphere_write.writeframes(data)` (the inherited `wave.Wave_write`
method): `writeframesraw` then an immediate patch when the counts differ. -/
def writeframesW (st : WriteState) (data : PyStr) (bigEndian : Bool) :
    WriteState × Option PyExc :=
  match writeframesrawW st data bigEndian with
  | (st, some e) => (st, some e)
  | (st, none) =>
    if st.datalength ≠ (st.datawritten : Int) then patchheaderW st
    else (st, none)

/-! ### Cleanliness predicates

A header survives the byte-level round trip only when its names and values
contain none of the characters the line format itself uses for structure.
These predicates collect exactly those conditions. -/

/-- A value text that the line format transports unchanged: ASCII, no
comment separator, no line terminators, and invariant under the reader's
`rstrip`. -/
def cleanStr (s : PyStr) : Bool :=
  allAscii s && !s.contains ';' && !s.contains '\n' && !s.contains '\x0d' &&
    (pyRstrip s == s)

/-- A field name the line format transports unchanged: non-empty ASCII
without spaces, comment separators or line terminators. -/
def cleanKey (k : PyStr) : Bool :=
  !k.isEmpty && allAscii k && !k.contains ' ' && !k.contains ';' &&
    !k.contains '\n' && !k.contains '\x0d'

/-- A value the codec re-reads exactly: ints always; floats via their clean
canonical text; clean strings; never a value of any other Python type. -/
def cleanVal : FieldValue → Bool
  | .vInt _ => true
  | .vReal t => cleanStr t && pyFloatOk t
  | .vStr s => cleanStr s
  | .vOther _ => false

/-- All bindings of a mapping are transportable. -/
def cleanDict (hi : Dict) : Bool := hi.all (fun kv => cleanKey kv.1 && cleanVal kv.2)

/-- Total byte length of the header `_write_header` emits for `hi`
(16-byte magic and size, the field lines, the 13-byte trailer), before
padding. -/
def headerLen (hi : Dict) : Nat :=
  29 + (hi.map (fun kv => (fieldLine kv.1 kv.2).length)).sum

/-! ### Concrete inputs used by the claim theorems -/

/-- Parameters for a write stream that never declares `sample_count`. -/
def c1Params : Dict :=
  [("channel_count".toList, .vInt 1), ("sample_n_bytes".toList, .vInt 1),
   ("sample_rate".toList, .vInt 8000)]

/-- Set the parameters, write two whole 1-byte frames, close. -/
def c1Run : WriteState × Option PyExc :=
  let r1 := setparamsW freshW c1Params
  let r2 := writeframesrawW r1.1 "AB".toList false
  closeW r2.1

/-- Re-open written bytes and look the `sample_count` header field up. -/
def parsedSampleCount (c : PyStr) : Option FieldValue :=
  match initfp (mkR c) with
  | .ok st => dGet st.headinfo "sample_count".toList
  | .error _ => none

/-- The C3 mapping with the insertion order in which the claim writes it down. -/
def c3MappingAsWritten : Dict :=
  [("channel_count".toList, .vInt 1), ("sample_n_bytes".toList, .vInt 2),
   ("sample_rate".toList, .vInt 16000), ("sample_count".toList, .vInt 48743),
   ("database_id".toList, .vStr "RM1".toList)]

/-- The same bindings with `database_id` inserted first (the insertion order
that matches the claim's expected byte sequence). -/
def c3MappingDbFirst : Dict :=
  [("database_id".toList, .vStr "RM1".toList), ("channel_count".toList, .vInt 1),
   ("sample_count".toList, .vInt 48743), ("sample_rate".toList, .vInt 16000),
   ("sample_n_bytes".toList, .vInt 2)]

/-- The exact byte sequence the claim requires up to the padding. -/
def c3ExpectedPrefix : PyStr :=
  ("NIST_1A\n   1024\ndatabase_id -s3 RM1\nchannel_count -i 1\nsample_count -i 48743\nsample_rate -i 16000\nsample_n_bytes -i 2\nend_head\n").toList

/-- Serialize a mapping through the write stream (set parameters, then a
zero-length `writeframesraw`, which materializes the header; this is how
the repository's own tests exercise header serialization). -/
def serializeVia (p : Dict) : WriteState × Option PyExc :=
  let r1 := setparamsW freshW p
  writeframesrawW r1.1 [] false

/-- The C4 parameter set: `channel_count` present, `sample_n_bytes` missing. -/
def c4Info : Dict :=
  [("channel_count".toList, .vInt 1), ("sample_rate".toList, .vInt 16000)]

/-- A header whose third field line carries the unknown type flag `-x`. -/
def c5File : PyStr :=
  ("NIST_1A\n      73channel_count -i 1\nsample_n_bytes -i 1\nfoo -x 1\nend_head\n").toList

/-- An 84-byte file: an 82-byte header declaring one 1-byte frame
(`sample_count` 1) followed by TWO data bytes. -/
def c6File : PyStr :=
  ("NIST_1A\n      82channel_count -i 1\nsample_n_bytes -i 1\nsample_count -i 1\nend_head\nAB").toList

instance : Inhabited SphereRead :=
  ⟨{ file := mkR [], headinfo := [], soundpos := 0, dataSeekNeeded := false,
     offset := 0, framesize := 0 }⟩

/-- The open stream over `c6File`. -/
def c6Stream : SphereRead :=
  match initfp (mkR c6File) with
  | .ok st => st
  | .error _ => default

/-- Like `c6File` but with `sample_count` 2, so the data region holds
exactly the declared number of frames. -/
def c6ExactFile : PyStr :=
  ("NIST_1A\n      82channel_count -i 1\nsample_n_bytes -i 1\nsample_count -i 2\nend_head\nAB").toList

/-- The open stream over `c6ExactFile`. -/
def c6ExactStream : SphereRead :=
  match initfp (mkR c6ExactFile) with
  | .ok st => st
  | .error _ => default

/-- An 84-byte file with 2-byte samples (one 2-byte frame). -/
def c7File : PyStr :=
  ("NIST_1A\n      82channel_count -i 1\nsample_n_bytes -i 2\nsample_count -i 1\nend_head\nAB").toList

/-- The open stream over `c7File`. -/
def c7Stream : SphereRead :=
  match initfp (mkR c7File) with
  | .ok st => st
  | .error _ => default

/-- A stream with a deferred reseek pending (a successful `setpos(1)` on the
`c6ExactFile` stream). -/
def c8Pending : SphereRead := (setpos c6ExactStream 1).1

/-- A 65-byte file whose header has no `sample_count` field. -/
def c10File : PyStr :=
  ("NIST_1A\n      64channel_count -i 1\nsample_n_bytes -i 1\nend_head\nA").toList

/-- The open stream over `c10File`. -/
def c10Stream : SphereRead :=
  match initfp (mkR c10File) with
  | .ok st => st
  | .error _ => default

/-- A valid parameter mapping (all required keys present, every value an
integer) that does NOT declare `sample_count`. -/
def c2BadInfo : Dict :=
  [("channel_count".toList, .vInt 1), ("sample_n_bytes".toList, .vInt 1),
   ("sample_rate".toList, .vInt 8000)]

/-- Write `hi` and `d` through a fresh write stream, re-open the sink's
bytes through a read stream, and return the parsed mapping together with a
read of `m` frames; `none` when any step raises (host little-endian). -/
def roundTrip (hi : Dict) (d : PyStr) (m : Int) : Option (Dict × PyStr) :=
  let r1 := setparamsW freshW hi
  match r1.2 with
  | some _ => none
  | none =>
    let r2 := writeframesrawW r1.1 d false
    match r2.2 with
    | some _ => none
    | none =>
      match initfp (mkR r2.1.file.content) with
      | .error _ => none
      | .ok st =>
        let o := readframes st m false
        match o.exc with
        | some _ => none
        | none => some (st.headinfo, o.data)

/-- A clean mapping (with `sample_count`) for the round-trip witness. -/
def c2GoodInfo : Dict :=
  [("database_id".toList, .vStr "RM1".toList), ("channel_count".toList, .vInt 1),
   ("sample_count".toList, .vInt 2), ("sample_rate".toList, .vInt 16000),
   ("database_version".toList, .vReal "1.5".toList), ("sample_n_bytes".toList, .vInt 1)]

/-- The C9 write stream: both width parameters set, `sample_rate` missing. -/
def c9Start : WriteState :=
  (setparamsW freshW
    [("channel_count".toList, .vInt 1), ("sample_n_bytes".toList, .vInt 1)]).1

/-- The decoded header lines (without terminators) of a mapping. -/
def linesOf (hi : Dict) : List PyStr := hi.map fun kv => fieldBody kv.1 kv.2

/-- The concatenated encoded field lines of a mapping. -/
def linesBytes (hi : Dict) : PyStr := (hi.map fun kv => fieldLine kv.1 kv.2).flatten

/-- The full 1024-byte header block `_write_header` emits for a mapping that
already contains `sample_count` (magic, size, field lines, trailer, space
padding). -/
def headerBytes (hi : Dict) : PyStr :=
  "NIST_1A\n   1024\n".toList ++ linesBytes hi ++ "end_head\n\n\n\n\n".toList ++
    List.replicate (1024 - (29 + (linesBytes hi).length)) ' '

/-! ### Helper lemmas -/

/-! ### Generic helper lemmas -/

/-- Disequality from a computed `false` of the boolean equality test
(the stack-friendly route for large concrete byte strings). -/
theorem neOfBeqFalse {α : Type} [BEq α] [LawfulBEq α] {a b : α} (h : (a == b) = false) :
    a ≠ b := by
  intro he
  subst he
  simp at h

theorem dropWhile_of_all {p : Char → Bool} :
    ∀ l : PyStr, (∀ c ∈ l, p c = false) → l.dropWhile p = l
  | [], _ => rfl
  | c :: cs, h => by simp [List.dropWhile_cons, h c (List.mem_cons_self c cs)]

theorem pyStrip_of_all {l : PyStr} (h : ∀ c ∈ l, isPySpace c = false) : pyStrip l = l := by
  unfold pyStrip pyRstrip
  rw [dropWhile_of_all l h, dropWhile_of_all l.reverse (fun c hc => h c (List.mem_reverse.mp hc)),
    List.reverse_reverse]

theorem splitlinesAux_other (c : Char) (rest acc : PyStr) (h1 : c ≠ '\n') (h2 : c ≠ '\x0d') :
    splitlinesAux (c :: rest) acc = splitlinesAux rest (c :: acc) := by
  conv_lhs => rw [splitlinesAux.eq_def]
  split
  · simp_all
  · simp_all
  · simp_all
  · simp_all
  · simp_all

theorem splitlinesAux_nl (rest acc : PyStr) :
    splitlinesAux ('\n' :: rest) acc = acc.reverse :: splitlinesAux rest [] := rfl

theorem contains_cons_false {c x : Char} {cs : List Char}
    (h : (c :: cs).contains x = false) : x ≠ c ∧ cs.contains x = false := by
  simp only [List.contains_cons, Bool.or_eq_false_iff, beq_eq_false_iff_ne, ne_eq] at h
  exact ⟨h.1, h.2⟩

/-- Splitting a terminator-free line off the front of a line block. -/
theorem splitlinesAux_line (body : PyStr) (rest acc : PyStr)
    (hn : body.contains '\n' = false) (hr : body.contains '\x0d' = false) :
    splitlinesAux (body ++ '\n' :: rest) acc =
      (acc.reverse ++ body) :: splitlinesAux rest [] := by
  induction body generalizing acc with
  | nil => simp [splitlinesAux_nl]
  | cons c cs ih =>
    obtain ⟨hn1, hn2⟩ := contains_cons_false hn
    obtain ⟨hr1, hr2⟩ := contains_cons_false hr
    rw [List.cons_append,
      splitlinesAux_other c _ _ (fun h => hn1 h.symm) (fun h => hr1 h.symm), ih _ hn2 hr2]
    simp

theorem breakChar_of_not_contains {c : Char} :
    ∀ {s : PyStr}, s.contains c = false → breakChar c s = (s, none)
  | [], _ => rfl
  | x :: xs, h => by
    obtain ⟨h1, h2⟩ := contains_cons_false h
    simp [breakChar, Ne.symm h1, breakChar_of_not_contains h2]

theorem breakChar_append {c : Char} {a r : PyStr} (h : a.contains c = false) :
    breakChar c (a ++ c :: r) = (a, some r) := by
  induction a with
  | nil => simp [breakChar]
  | cons x xs ih =>
    obtain ⟨h1, h2⟩ := contains_cons_false h
    simp [breakChar, Ne.symm h1, ih h2]

theorem pySplitSemi_of_clean {s : PyStr} (h : s.contains ';' = false) : pySplitSemi s = s := by
  simp [pySplitSemi, breakChar_of_not_contains h]

/-- `split(' ', 2)` of a well-formed three-token line. -/
theorem pySplitSpace2_three {name tag rest : PyStr}
    (hn : name.contains ' ' = false) (ht : tag.contains ' ' = false) :
    pySplitSpace2 (name ++ ' ' :: (tag ++ ' ' :: rest)) = [name, tag, rest] := by
  simp only [pySplitSpace2, breakChar_append hn, breakChar_append ht]

/-! ### Decimal digit lemmas -/

theorem digitChar_toNat {m : Nat} (h : m < 10) : (Char.ofNat (48 + m)).toNat = 48 + m := by
  interval_cases m <;> rfl

theorem digitChar_isDigit {m : Nat} (h : m < 10) : isDigitCh (Char.ofNat (48 + m)) = true := by
  interval_cases m <;> rfl

theorem isDigitCh_bounds {c : Char} (h : isDigitCh c = true) :
    48 ≤ c.toNat ∧ c.toNat ≤ 57 := by
  simp only [isDigitCh, Bool.and_eq_true, decide_eq_true_eq] at h
  exact h

theorem isDigitCh_ne {c : Char} (h : isDigitCh c = true) {d : Char}
    (hd : d.toNat < 48 ∨ 57 < d.toNat) : c ≠ d := by
  obtain ⟨h1, h2⟩ := isDigitCh_bounds h
  intro he
  subst he
  omega

theorem isDigitCh_not_space {c : Char} (h : isDigitCh c = true) : isPySpace c = false := by
  obtain ⟨h1, h2⟩ := isDigitCh_bounds h
  simp only [isPySpace, Bool.or_eq_false_iff, decide_eq_false_iff_not]
  refine ⟨⟨⟨⟨⟨?_, ?_⟩, ?_⟩, ?_⟩, ?_⟩, ?_⟩ <;> (intro he; subst he; exact absurd h1 (by decide))

theorem natToCharsAux_eq (n : Nat) : ∀ (fuel : Nat) (acc : PyStr), n < fuel →
    natToCharsAux fuel n acc = natToChars n ++ acc := by
  induction n using Nat.strong_induction_on with
  | _ n ih =>
    intro fuel acc hfuel
    match fuel, hfuel with
    | fuel + 1, hfuel =>
      by_cases hdiv : n / 10 = 0
      · simp [natToCharsAux, hdiv, natToChars]
      · have hlt : n / 10 < n := Nat.div_lt_self (by omega) (by omega)
        have hfe : n / 10 < fuel := by omega
        rw [natToCharsAux, if_neg hdiv, ih (n / 10) hlt fuel _ hfe]
        conv_rhs => rw [natToChars, natToCharsAux, if_neg hdiv,
          ih (n / 10) hlt n _ (by omega)]
        simp

theorem natToChars_decomp {n : Nat} (h : n / 10 ≠ 0) :
    natToChars n = natToChars (n / 10) ++ [Char.ofNat (48 + n % 10)] := by
  have hn0 : 0 < n := by
    rcases Nat.eq_zero_or_pos n with h0 | h0
    · subst h0
      simp at h
    · exact h0
  have hlt : n / 10 < n := Nat.div_lt_self hn0 (by omega)
  conv_lhs => rw [natToChars, natToCharsAux, if_neg h]
  rw [natToCharsAux_eq (n / 10) n _ (by omega)]

theorem natToChars_single {n : Nat} (h : n < 10) :
    natToChars n = [Char.ofNat (48 + n)] := by
  have hdiv : n / 10 = 0 := Nat.div_eq_of_lt h
  rw [natToChars, natToCharsAux, if_pos hdiv]
  rw [Nat.mod_eq_of_lt h]

theorem natToChars_all_digits (n : Nat) : ∀ c ∈ natToChars n, isDigitCh c = true := by
  induction n using Nat.strong_induction_on with
  | _ n ih =>
    by_cases hdiv : n / 10 = 0
    · have hn : n < 10 := by
        by_contra hc
        have : 1 ≤ n / 10 := Nat.le_div_iff_mul_le (by omega) |>.mpr (by omega)
        omega
      rw [natToChars_single hn]
      intro c hc
      simp only [List.mem_singleton] at hc
      subst hc
      exact digitChar_isDigit hn
    · rw [natToChars_decomp hdiv]
      intro c hc
      rcases List.mem_append.mp hc with h1 | h1
      · exact ih (n / 10) (Nat.div_lt_self (by omega) (by omega)) c h1
      · simp only [List.mem_singleton] at h1
        subst h1
        exact digitChar_isDigit (Nat.mod_lt _ (by omega))

theorem natToChars_ne_nil (n : Nat) : natToChars n ≠ [] := by
  by_cases hdiv : n / 10 = 0
  · have hn : n < 10 := by
      by_contra hc
      have : 1 ≤ n / 10 := Nat.le_div_iff_mul_le (by omega) |>.mpr (by omega)
      omega
    rw [natToChars_single hn]
    simp
  · rw [natToChars_decomp hdiv]
    simp

theorem digitsToNatAux_append (a : Nat) (l1 l2 : PyStr) :
    digitsToNatAux a (l1 ++ l2) =
      match digitsToNatAux a l1 with
      | some b => digitsToNatAux b l2
      | none => none := by
  induction l1 generalizing a with
  | nil => simp [digitsToNatAux]
  | cons c cs ih =>
    by_cases hd : isDigitCh c = true
    · simp [digitsToNatAux, hd, ih]
    · simp [digitsToNatAux, hd]

theorem digitsToNat_eq_aux {l : PyStr} (h : l ≠ []) : digitsToNat l = digitsToNatAux 0 l := by
  match l, h with
  | c :: cs, _ => rfl

theorem digitsToNatAux_natToChars (n : Nat) : digitsToNatAux 0 (natToChars n) = some n := by
  induction n using Nat.strong_induction_on with
  | _ n ih =>
    by_cases hdiv : n / 10 = 0
    · have hn : n < 10 := by
        by_contra hc
        have : 1 ≤ n / 10 := Nat.le_div_iff_mul_le (by omega) |>.mpr (by omega)
        omega
      rw [natToChars_single hn]
      simp [digitsToNatAux, digitChar_isDigit hn, digitChar_toNat hn]
    · rw [natToChars_decomp hdiv, digitsToNatAux_append,
        ih (n / 10) (Nat.div_lt_self (by omega) (by omega))]
      have hm : n % 10 < 10 := Nat.mod_lt _ (by omega)
      simp [digitsToNatAux, digitChar_isDigit hm, digitChar_toNat hm]
      omega

theorem digitsToNat_natToChars (n : Nat) : digitsToNat (natToChars n) = some n := by
  rw [digitsToNat_eq_aux (natToChars_ne_nil n), digitsToNatAux_natToChars]

theorem contains_eq_false_of_all {x : Char} {l : PyStr} (h : ∀ c ∈ l, c ≠ x) :
    l.contains x = false := by
  induction l with
  | nil => rfl
  | cons c cs ih =>
    rw [List.contains_cons]
    have hx : (x == c) = false := by
      simp only [beq_eq_false_iff_ne, ne_eq]
      intro he
      exact h c (List.mem_cons_self c cs) he.symm
    rw [hx, ih (fun d hd => h d (List.mem_cons_of_mem c hd))]
    rfl

theorem pyRstrip_of_all {l : PyStr} (h : ∀ c ∈ l, isPySpace c = false) : pyRstrip l = l := by
  unfold pyRstrip
  rw [dropWhile_of_all l.reverse (fun c hc => h c (List.mem_reverse.mp hc)),
    List.reverse_reverse]

theorem natToChars_head_digit (n : Nat) :
    ∃ c cs, natToChars n = c :: cs ∧ isDigitCh c = true := by
  obtain ⟨c, cs, hc⟩ := List.exists_cons_of_ne_nil (natToChars_ne_nil n)
  exact ⟨c, cs, hc, natToChars_all_digits n c (by rw [hc]; exact List.mem_cons_self c cs)⟩

theorem intToChars_not_space (i : Int) : ∀ c ∈ intToChars i, isPySpace c = false := by
  cases i with
  | ofNat n => exact fun c hc => isDigitCh_not_space (natToChars_all_digits n c hc)
  | negSucc m =>
    intro c hc
    rcases List.mem_cons.mp hc with h1 | h1
    · subst h1
      rfl
    · exact isDigitCh_not_space (natToChars_all_digits (m + 1) c h1)

theorem pyInt_intToChars (i : Int) : pyInt (intToChars i) = some i := by
  have hstrip : pyStrip (intToChars i) = intToChars i := pyStrip_of_all (intToChars_not_space i)
  unfold pyInt
  rw [hstrip]
  cases i with
  | ofNat n =>
    obtain ⟨c, cs, hc, hd⟩ := natToChars_head_digit n
    have hne1 : c ≠ '+' := isDigitCh_ne hd (by left; decide)
    have hne2 : c ≠ '-' := isDigitCh_ne hd (by left; decide)
    show (match intToChars (Int.ofNat n) with
      | '+' :: rest => (digitsToNat rest).map Int.ofNat
      | '-' :: rest => (digitsToNat rest).map (fun n => -(n : Int))
      | t => (digitsToNat t).map Int.ofNat) = some (Int.ofNat n)
    split
    · rename_i heq
      rw [show intToChars (Int.ofNat n) = natToChars n from rfl, hc] at heq
      exact absurd (List.head_eq_of_cons_eq heq) hne1
    · rename_i heq
      rw [show intToChars (Int.ofNat n) = natToChars n from rfl, hc] at heq
      exact absurd (List.head_eq_of_cons_eq heq) hne2
    · rw [show intToChars (Int.ofNat n) = natToChars n from rfl, digitsToNat_natToChars]
      rfl
  | negSucc m =>
    show (match intToChars (Int.negSucc m) with
      | '+' :: rest => (digitsToNat rest).map Int.ofNat
      | '-' :: rest => (digitsToNat rest).map (fun n => -(n : Int))
      | t => (digitsToNat t).map Int.ofNat) = some (Int.negSucc m)
    split
    · rename_i heq
      exact absurd (List.head_eq_of_cons_eq heq) (by decide)
    · rename_i heq
      have hrest := List.tail_eq_of_cons_eq heq
      rw [← hrest, digitsToNat_natToChars]
      simp [Int.negSucc_eq]
    · rename_i hne1 hne2
      exact absurd rfl (hne2 (natToChars (m + 1)))

theorem natToChars_contains_false {x : Char} (hx : isDigitCh x = false) (n : Nat) :
    (natToChars n).contains x = false :=
  contains_eq_false_of_all (fun c hc he => by
    have hd := natToChars_all_digits n c hc
    rw [he] at hd
    rw [hd] at hx
    exact Bool.noConfusion hx)

theorem intToChars_contains_false {x : Char} (hx : isDigitCh x = false) (hm : x ≠ '-')
    (i : Int) : (intToChars i).contains x = false := by
  cases i with
  | ofNat n => exact natToChars_contains_false hx n
  | negSucc m =>
    show (('-' :: natToChars (m + 1)).contains x) = false
    rw [List.contains_cons, natToChars_contains_false hx (m + 1)]
    simp only [Bool.or_false, beq_eq_false_iff_ne, ne_eq]
    exact hm

theorem allAscii_natToChars (n : Nat) : allAscii (natToChars n) = true := by
  rw [allAscii, List.all_eq_true]
  intro c hc
  obtain ⟨h1, h2⟩ := isDigitCh_bounds (natToChars_all_digits n c hc)
  simp only [decide_eq_true_eq]
  omega

theorem allAscii_intToChars (i : Int) : allAscii (intToChars i) = true := by
  cases i with
  | ofNat n => exact allAscii_natToChars n
  | negSucc m =>
    show allAscii ('-' :: natToChars (m + 1)) = true
    have h2 := allAscii_natToChars (m + 1)
    rw [allAscii] at h2
    rw [allAscii, List.all_cons, h2]
    rfl

theorem allAscii_append (a b : PyStr) : allAscii (a ++ b) = (allAscii a && allAscii b) :=
  List.all_append

/-! ### Dictionary lemmas -/

theorem dGet_append (a b : Dict) (k : PyStr) :
    dGet (a ++ b) k = match dGet a k with | some v => some v | none => dGet b k := by
  induction a with
  | nil => simp [dGet]
  | cons kv rest ih =>
    by_cases h : kv.1 = k
    · simp [dGet, h]
    · simp [dGet, h, ih]

theorem dHas_append (a b : Dict) (k : PyStr) :
    dHas (a ++ b) k = (dHas a k || dHas b k) := by
  rw [dHas, dGet_append]
  cases hga : dGet a k with
  | none => simp [dHas, hga]
  | some v => simp [dHas, hga]

theorem dSet_fresh {d : Dict} {k : PyStr} (v : FieldValue) (h : dHas d k = false) :
    dSet d k v = d ++ [(k, v)] := by
  induction d with
  | nil => rfl
  | cons kv rest ih =>
    rw [dHas, dGet] at h
    by_cases he : kv.1 = k
    · rw [if_pos he] at h
      simp at h
    · rw [if_neg he] at h
      show dSet (kv :: rest) k v = kv :: (rest ++ [(k, v)])
      rw [dSet]
      rw [if_neg he, ih h]

theorem foldl_dSet_fresh (hi : Dict) : ∀ acc : Dict,
    (hi.map Prod.fst).Nodup → (∀ kv ∈ hi, dHas acc kv.1 = false) →
    dUpdate acc hi = acc ++ hi := by
  induction hi with
  | nil => intro acc _ _; simp [dUpdate]
  | cons kv rest ih =>
    intro acc hnodup hfresh
    have h1 : dHas acc kv.1 = false := hfresh kv (List.mem_cons_self kv rest)
    show dUpdate (dSet acc kv.1 kv.2) rest = acc ++ kv :: rest
    rw [dSet_fresh kv.2 h1]
    rw [List.map_cons, List.nodup_cons] at hnodup
    rw [ih (acc ++ [(kv.1, kv.2)]) hnodup.2]
    · simp
    · intro kv2 h2
      rw [dHas_append, hfresh kv2 (List.mem_cons_of_mem kv h2), Bool.false_or]
      rw [dHas, dGet]
      have : kv.1 ≠ kv2.1 := by
        intro he
        exact hnodup.1 (he ▸ List.mem_map_of_mem Prod.fst h2)
      rw [if_neg this]
      rfl

theorem dUpdate_nil (hi : Dict) (h : (hi.map Prod.fst).Nodup) : dUpdate [] hi = hi := by
  rw [foldl_dSet_fresh hi [] h (fun kv _ => rfl)]
  rfl

theorem contains_false_mem {x : Char} {l : PyStr} (h : l.contains x = false) :
    ∀ c ∈ l, c ≠ x := by
  induction l with
  | nil => intro c hc; exact absurd hc (List.not_mem_nil c)
  | cons a as ih =>
    obtain ⟨h1, h2⟩ := contains_cons_false h
    intro c hc
    rcases List.mem_cons.mp hc with he | he
    · subst he
      exact fun hcx => h1 hcx.symm
    · exact ih h2 c he

theorem contains_append_false {x : Char} {a b : PyStr} (ha : a.contains x = false)
    (hb : b.contains x = false) : (a ++ b).contains x = false :=
  contains_eq_false_of_all (fun c hc => by
    rcases List.mem_append.mp hc with h1 | h1
    · exact contains_false_mem ha c h1
    · exact contains_false_mem hb c h1)

theorem contains_true_of_mem {x : Char} {l : PyStr} (h : x ∈ l) : l.contains x = true := by
  induction l with
  | nil => exact absurd h (List.not_mem_nil x)
  | cons a as ih =>
    rw [List.contains_cons]
    rcases List.mem_cons.mp h with he | he
    · subst he
      simp
    · rw [ih he]
      simp

theorem cleanStr_props {s : PyStr} (h : cleanStr s = true) :
    allAscii s = true ∧ s.contains ';' = false ∧ s.contains '\n' = false ∧
      s.contains '\x0d' = false ∧ pyRstrip s = s := by
  simp only [cleanStr, Bool.and_eq_true, Bool.not_eq_true'] at h
  exact ⟨h.1.1.1.1, h.1.1.1.2, h.1.1.2, h.1.2, eq_of_beq h.2⟩

theorem cleanKey_props {k : PyStr} (h : cleanKey k = true) :
    k ≠ [] ∧ allAscii k = true ∧ k.contains ' ' = false ∧ k.contains ';' = false ∧
      k.contains '\n' = false ∧ k.contains '\x0d' = false := by
  simp only [cleanKey, Bool.and_eq_true, Bool.not_eq_true'] at h
  refine ⟨?_, h.1.1.1.1.2, h.1.1.1.2, h.1.1.2, h.1.2, h.2⟩
  have := h.1.1.1.1.1
  intro he
  subst he
  simp at this

theorem contains_cons_intro {x c : Char} {l : PyStr} (h1 : x ≠ c)
    (h2 : l.contains x = false) : (c :: l).contains x = false := by
  rw [List.contains_cons]
  simp only [Bool.or_eq_false_iff, beq_eq_false_iff_ne, ne_eq]
  exact ⟨h1, h2⟩

theorem allAscii_cons (c : Char) (l : PyStr) :
    allAscii (c :: l) = (decide (c.toNat ≤ 127) && allAscii l) := List.all_cons

/-- Reduce `decodeFieldLine` on a well-shaped three-token line down to the
type-tag dispatch. -/
theorem decodeFieldLine_eq (k tag val : PyStr)
    (hka : allAscii (k ++ ' ' :: (tag ++ ' ' :: val)) = true)
    (hsemi : (k ++ ' ' :: (tag ++ ' ' :: val)).contains ';' = false)
    (hksp : k.contains ' ' = false) (htsp : tag.contains ' ' = false) :
    decodeFieldLine (k ++ ' ' :: (tag ++ ' ' :: val)) =
      (let v := pyRstrip val
       if ("-i".toList).isPrefixOf tag then
         match pyInt v with
         | some i => .ok (k, .vInt i)
         | none => .error .valueError
       else if ("-r".toList).isPrefixOf tag then
         if pyFloatOk v then .ok (k, .vReal v) else .error .valueError
       else if ("-s".toList).isPrefixOf tag then
         match pyInt (pyLstripSet ['-', 's'] tag) with
         | some n => .ok (k, .vStr (pySliceTo n v))
         | none => .error .valueError
       else .error .typeError) := by
  unfold decodeFieldLine
  rw [hka]
  simp only [Bool.not_true, Bool.false_eq_true, if_false]
  rw [pySplitSemi_of_clean hsemi, pySplitSpace2_three hksp htsp]

theorem decode_encode_int (k : PyStr) (i : Int) (hk : cleanKey k = true) :
    decodeFieldLine (fieldBody k (.vInt i)) = .ok (k, .vInt i) := by
  obtain ⟨hk0, hkA, hksp, hksemi, hkn, hkr⟩ := cleanKey_props hk
  have hshape : fieldBody k (.vInt i) = k ++ ' ' :: (('-' :: 'i' :: []) ++ ' ' :: intToChars i) := by
    show k ++ " -i ".toList ++ intToChars i = _
    rw [List.append_assoc]
    rfl
  have hrs : pyRstrip (intToChars i) = intToChars i := pyRstrip_of_all (intToChars_not_space i)
  have hA : allAscii (k ++ ' ' :: (('-' :: 'i' :: []) ++ ' ' :: intToChars i)) = true := by
    rw [allAscii_append, hkA, allAscii_cons, allAscii_append, allAscii_cons, allAscii_cons,
      allAscii_cons, allAscii_intToChars i]
    rfl
  have hS : (k ++ ' ' :: (('-' :: 'i' :: []) ++ ' ' :: intToChars i)).contains ';' = false := by
    refine contains_append_false hksemi ?_
    refine contains_cons_intro (by decide) (contains_cons_intro (by decide)
      (contains_cons_intro (by decide) (contains_cons_intro (by decide) ?_)))
    exact intToChars_contains_false (by decide) (by decide) i
  rw [hshape, decodeFieldLine_eq k _ _ hA hS hksp (by decide)]
  simp only [hrs, pyInt_intToChars]
  rfl

theorem decode_encode_real (k t : PyStr) (hk : cleanKey k = true)
    (ht : cleanStr t = true) (hf : pyFloatOk t = true) :
    decodeFieldLine (fieldBody k (.vReal t)) = .ok (k, .vReal t) := by
  obtain ⟨hk0, hkA, hksp, hksemi, hkn, hkr⟩ := cleanKey_props hk
  obtain ⟨htA, htsemi, htn, htr, htrs⟩ := cleanStr_props ht
  have hshape : fieldBody k (.vReal t) = k ++ ' ' :: (('-' :: 'r' :: []) ++ ' ' :: t) := by
    show k ++ " -r ".toList ++ t = _
    rw [List.append_assoc]
    rfl
  have hA : allAscii (k ++ ' ' :: (('-' :: 'r' :: []) ++ ' ' :: t)) = true := by
    rw [allAscii_append, hkA, allAscii_cons, allAscii_append, allAscii_cons, allAscii_cons,
      allAscii_cons, htA]
    rfl
  have hS : (k ++ ' ' :: (('-' :: 'r' :: []) ++ ' ' :: t)).contains ';' = false := by
    refine contains_append_false hksemi ?_
    exact contains_cons_intro (by decide) (contains_cons_intro (by decide)
      (contains_cons_intro (by decide) (contains_cons_intro (by decide) htsemi)))
  rw [hshape, decodeFieldLine_eq k _ _ hA hS hksp (by decide)]
  simp only [htrs, hf]
  rfl

theorem decode_encode_str (k s : PyStr) (hk : cleanKey k = true) (hs : cleanStr s = true) :
    decodeFieldLine (fieldBody k (.vStr s)) = .ok (k, .vStr s) := by
  obtain ⟨hk0, hkA, hksp, hksemi, hkn, hkr⟩ := cleanKey_props hk
  obtain ⟨hsA, hssemi, hsn, hsr, hsrs⟩ := cleanStr_props hs
  have hshape : fieldBody k (.vStr s) =
      k ++ ' ' :: (('-' :: 's' :: natToChars s.length) ++ ' ' :: s) := by
    show k ++ " -s".toList ++ natToChars s.length ++ [' '] ++ s = _
    rw [List.append_assoc, List.append_assoc, List.append_assoc]
    rfl
  have hdig := natToChars_all_digits s.length
  have hA : allAscii (k ++ ' ' :: (('-' :: 's' :: natToChars s.length) ++ ' ' :: s)) = true := by
    rw [allAscii_append, hkA, allAscii_cons, allAscii_append, allAscii_cons, allAscii_cons,
      allAscii_natToChars, allAscii_cons, hsA]
    rfl
  have hS : (k ++ ' ' :: (('-' :: 's' :: natToChars s.length) ++ ' ' :: s)).contains ';' = false := by
    refine contains_append_false hksemi ?_
    refine contains_cons_intro (by decide) ?_
    refine contains_append_false ?_ (contains_cons_intro (by decide) hssemi)
    exact contains_cons_intro (by decide) (contains_cons_intro (by decide)
      (natToChars_contains_false (by decide) s.length))
  have htsp : ('-' :: 's' :: natToChars s.length).contains ' ' = false :=
    contains_cons_intro (by decide) (contains_cons_intro (by decide)
      (natToChars_contains_false (by decide) s.length))
  rw [hshape, decodeFieldLine_eq k _ _ hA hS hksp htsp]
  obtain ⟨c, cs, hc, hcd⟩ := natToChars_head_digit s.length
  have hpre1 : (("-i".toList).isPrefixOf ('-' :: 's' :: natToChars s.length)) = false := by
    simp [List.isPrefixOf]
  have hpre2 : (("-r".toList).isPrefixOf ('-' :: 's' :: natToChars s.length)) = false := by
    simp [List.isPrefixOf]
  have hpre3 : (("-s".toList).isPrefixOf ('-' :: 's' :: natToChars s.length)) = true := by
    simp [List.isPrefixOf]
  have hc1 : (c == '-') = false := by
    simp only [beq_eq_false_iff_ne, ne_eq]
    exact isDigitCh_ne hcd (by left; decide)
  have hc2 : (c == 's') = false := by
    simp only [beq_eq_false_iff_ne, ne_eq]
    exact isDigitCh_ne hcd (by right; decide)
  have hlstrip : pyLstripSet ['-', 's'] ('-' :: 's' :: natToChars s.length) =
      natToChars s.length := by
    show List.dropWhile _ ('-' :: 's' :: natToChars s.length) = natToChars s.length
    rw [List.dropWhile_cons]
    simp only [show (['-', 's'].contains '-') = true from rfl, if_true]
    rw [List.dropWhile_cons]
    simp only [show (['-', 's'].contains 's') = true from rfl, if_true]
    rw [hc, List.dropWhile_cons]
    have hcm : (['-', 's'].contains c) = false := by
      rw [List.contains_cons, List.contains_cons, hc1, hc2]
      rfl
    rw [hcm]
    simp
  have hpi : pyInt (natToChars s.length) = some (Int.ofNat s.length) :=
    pyInt_intToChars (Int.ofNat s.length)
  simp [hpre1, hpre2, hpre3, hsrs, hlstrip, hpi, pySliceTo, List.take_length]

theorem decode_encode (k : PyStr) (v : FieldValue) (hk : cleanKey k = true)
    (hv : cleanVal v = true) : decodeFieldLine (fieldBody k v) = .ok (k, v) := by
  cases v with
  | vInt i => exact decode_encode_int k i hk
  | vReal t =>
    rw [cleanVal, Bool.and_eq_true] at hv
    exact decode_encode_real k t hk hv.1 hv.2
  | vStr s => exact decode_encode_str k s hk hv
  | vOther t => simp [cleanVal] at hv

theorem fieldBody_int_shape (k : PyStr) (i : Int) :
    fieldBody k (.vInt i) = k ++ ' ' :: (('-' :: 'i' :: []) ++ ' ' :: intToChars i) := by
  show k ++ " -i ".toList ++ intToChars i = _
  rw [List.append_assoc]
  rfl

theorem fieldBody_real_shape (k t : PyStr) :
    fieldBody k (.vReal t) = k ++ ' ' :: (('-' :: 'r' :: []) ++ ' ' :: t) := by
  show k ++ " -r ".toList ++ t = _
  rw [List.append_assoc]
  rfl

theorem fieldBody_str_shape (k s : PyStr) :
    fieldBody k (.vStr s) = k ++ ' ' :: (('-' :: 's' :: natToChars s.length) ++ ' ' :: s) := by
  show k ++ " -s".toList ++ natToChars s.length ++ [' '] ++ s = _
  rw [List.append_assoc, List.append_assoc, List.append_assoc]
  rfl

theorem fieldBody_no_nl {k : PyStr} {v : FieldValue} (hk : cleanKey k = true)
    (hv : cleanVal v = true) :
    (fieldBody k v).contains '\n' = false ∧ (fieldBody k v).contains '\x0d' = false := by
  obtain ⟨hk0, hkA, hksp, hksemi, hkn, hkr⟩ := cleanKey_props hk
  cases v with
  | vInt i =>
    rw [fieldBody_int_shape]
    constructor
    · exact contains_append_false hkn (contains_cons_intro (by decide)
        (contains_cons_intro (by decide) (contains_cons_intro (by decide)
          (contains_cons_intro (by decide)
            (intToChars_contains_false (by decide) (by decide) i)))))
    · exact contains_append_false hkr (contains_cons_intro (by decide)
        (contains_cons_intro (by decide) (contains_cons_intro (by decide)
          (contains_cons_intro (by decide)
            (intToChars_contains_false (by decide) (by decide) i)))))
  | vReal t =>
    rw [cleanVal, Bool.and_eq_true] at hv
    obtain ⟨htA, htsemi, htn, htr, htrs⟩ := cleanStr_props hv.1
    rw [fieldBody_real_shape]
    constructor
    · exact contains_append_false hkn (contains_cons_intro (by decide)
        (contains_cons_intro (by decide) (contains_cons_intro (by decide)
          (contains_cons_intro (by decide) htn))))
    · exact contains_append_false hkr (contains_cons_intro (by decide)
        (contains_cons_intro (by decide) (contains_cons_intro (by decide)
          (contains_cons_intro (by decide) htr))))
  | vStr s =>
    obtain ⟨hsA, hssemi, hsn, hsr, hsrs⟩ := cleanStr_props hv
    rw [fieldBody_str_shape]
    constructor
    · refine contains_append_false hkn (contains_cons_intro (by decide)
        (contains_append_false ?_ (contains_cons_intro (by decide) hsn)))
      exact contains_cons_intro (by decide) (contains_cons_intro (by decide)
        (natToChars_contains_false (by decide) s.length))
    · refine contains_append_false hkr (contains_cons_intro (by decide)
        (contains_append_false ?_ (contains_cons_intro (by decide) hsr)))
      exact contains_cons_intro (by decide) (contains_cons_intro (by decide)
        (natToChars_contains_false (by decide) s.length))
  | vOther t => simp [cleanVal] at hv

theorem fieldBody_ne_end_head {k : PyStr} {v : FieldValue} (hv : cleanVal v = true) :
    fieldBody k v ≠ "end_head".toList := by
  intro he
  have hsp : (fieldBody k v).contains ' ' = true := by
    cases v with
    | vInt i =>
      rw [fieldBody_int_shape]
      exact contains_true_of_mem (List.mem_append_right _ (List.mem_cons_self _ _))
    | vReal t =>
      rw [fieldBody_real_shape]
      exact contains_true_of_mem (List.mem_append_right _ (List.mem_cons_self _ _))
    | vStr s =>
      rw [fieldBody_str_shape]
      exact contains_true_of_mem (List.mem_append_right _ (List.mem_cons_self _ _))
    | vOther t => simp [cleanVal] at hv
  rw [he] at hsp
  exact Bool.noConfusion (hsp.symm.trans (by decide : ("end_head".toList).contains ' ' = false))

theorem fieldLine_eq_body {k : PyStr} {v : FieldValue} (hv : cleanVal v = true) :
    fieldLine k v = fieldBody k v ++ ['\n'] := by
  cases v with
  | vInt i => rfl
  | vReal t => rfl
  | vStr s => rfl
  | vOther t => simp [cleanVal] at hv

theorem cleanDict_cons {kv : PyStr × FieldValue} {tl : Dict} (h : cleanDict (kv :: tl) = true) :
    (cleanKey kv.1 = true ∧ cleanVal kv.2 = true) ∧ cleanDict tl = true := by
  rw [cleanDict, List.all_cons, Bool.and_eq_true, Bool.and_eq_true] at h
  exact ⟨h.1, h.2⟩

theorem linesBytes_cons (kv : PyStr × FieldValue) (tl : Dict) :
    linesBytes (kv :: tl) = fieldLine kv.1 kv.2 ++ linesBytes tl := by
  simp [linesBytes]

theorem splitlines_linesBytes {hi : Dict} (hclean : cleanDict hi = true) (rest : PyStr) :
    splitlinesAux (linesBytes hi ++ rest) [] = linesOf hi ++ splitlinesAux rest [] := by
  induction hi with
  | nil => simp [linesBytes, linesOf]
  | cons kv tl ih =>
    obtain ⟨⟨hk, hv⟩, htl⟩ := cleanDict_cons hclean
    obtain ⟨hnl, hcr⟩ := fieldBody_no_nl hk hv
    rw [linesBytes_cons, fieldLine_eq_body hv, List.append_assoc, List.append_assoc]
    rw [show (['\n'] ++ (linesBytes tl ++ rest)) = '\n' :: (linesBytes tl ++ rest) from rfl]
    rw [splitlinesAux_line _ _ _ hnl hcr, ih htl]
    simp [linesOf]

theorem parseLines_fields {hi : Dict} (hclean : cleanDict hi = true)
    (junk : List PyStr) (f : RFile) :
    ∀ acc : Dict, parseLines (linesOf hi ++ ("end_head".toList :: junk)) acc f =
      parseLines ("end_head".toList :: junk) (dUpdate acc hi) f := by
  induction hi with
  | nil => intro acc; simp [linesOf, dUpdate]
  | cons kv tl ih =>
    intro acc
    obtain ⟨⟨hk, hv⟩, htl⟩ := cleanDict_cons hclean
    rw [show linesOf (kv :: tl) = fieldBody kv.1 kv.2 :: linesOf tl from rfl, List.cons_append]
    rw [parseLines]
    rw [if_neg (fieldBody_ne_end_head hv)]
    rw [decode_encode kv.1 kv.2 hk hv]
    exact ih htl _

theorem allAscii_fieldBody {k : PyStr} {v : FieldValue} (hk : cleanKey k = true)
    (hv : cleanVal v = true) : allAscii (fieldBody k v) = true := by
  obtain ⟨hk0, hkA, hksp, hksemi, hkn, hkr⟩ := cleanKey_props hk
  cases v with
  | vInt i =>
    rw [fieldBody_int_shape, allAscii_append, hkA, allAscii_cons, allAscii_append,
      allAscii_cons, allAscii_cons, allAscii_cons, allAscii_intToChars i]
    rfl
  | vReal t =>
    rw [cleanVal, Bool.and_eq_true] at hv
    obtain ⟨htA, _, _, _, _⟩ := cleanStr_props hv.1
    rw [fieldBody_real_shape, allAscii_append, hkA, allAscii_cons, allAscii_append,
      allAscii_cons, allAscii_cons, allAscii_cons, htA]
    rfl
  | vStr s =>
    obtain ⟨hsA, _, _, _, _⟩ := cleanStr_props hv
    rw [fieldBody_str_shape, allAscii_append, hkA, allAscii_cons, allAscii_append,
      allAscii_cons, allAscii_cons, allAscii_natToChars, allAscii_cons, hsA]
    rfl
  | vOther t => simp [cleanVal] at hv

theorem allAscii_fieldLine {k : PyStr} {v : FieldValue} (hk : cleanKey k = true)
    (hv : cleanVal v = true) : allAscii (fieldLine k v) = true := by
  rw [fieldLine_eq_body hv, allAscii_append, allAscii_fieldBody hk hv]
  rfl

theorem wwrite_at_end {f : WFile} (d : PyStr) (h : f.pos = f.content.length) :
    wwrite f d = ⟨f.content ++ d, f.content.length + d.length⟩ := by
  rw [wwrite, h, List.take_length, List.drop_eq_nil_of_le (by simp)]
  simp

theorem writeFieldsLoop_clean {hi : Dict} (hclean : cleanDict hi = true) :
    ∀ st : WriteState, st.file.pos = st.file.content.length →
    writeFieldsLoop hi st =
      ({ st with file := ⟨st.file.content ++ linesBytes hi,
          st.file.content.length + (linesBytes hi).length⟩ }, none) := by
  induction hi with
  | nil =>
    intro st hpos
    show (st, none) = _
    rw [show linesBytes [] = [] from rfl]
    simp [← hpos]
  | cons kv tl ih =>
    intro st hpos
    obtain ⟨⟨hk, hv⟩, htl⟩ := cleanDict_cons hclean
    have hline := allAscii_fieldLine hk hv
    have hstep : writeFieldsLoop (kv :: tl) st =
        writeFieldsLoop tl (wwriteSt st (fieldLine kv.1 kv.2)) := by
      cases hvv : kv.2 with
      | vOther t => rw [hvv] at hv; simp [cleanVal] at hv
      | vInt i =>
        show writeFieldsLoop (kv :: tl) st = _
        rw [writeFieldsLoop.eq_def]
        simp only [hvv] at hline ⊢
        rw [hline]
        simp
      | vReal t =>
        rw [writeFieldsLoop.eq_def]
        simp only [hvv] at hline ⊢
        rw [hline]
        simp
      | vStr s =>
        rw [writeFieldsLoop.eq_def]
        simp only [hvv] at hline ⊢
        rw [hline]
        simp
    rw [hstep]
    have hw : wwriteSt st (fieldLine kv.1 kv.2) =
        { st with file := ⟨st.file.content ++ fieldLine kv.1 kv.2,
            st.file.content.length + (fieldLine kv.1 kv.2).length⟩ } := by
      rw [wwriteSt, wwrite_at_end _ hpos]
    rw [hw, ih htl _ (by simp)]
    rw [linesBytes_cons]
    simp [List.append_assoc]
    omega

theorem wwriteSt_at_end (s : WriteState) (d : PyStr) (h : s.file.pos = s.file.content.length) :
    wwriteSt s d = { s with file := ⟨s.file.content ++ d, s.file.content.length + d.length⟩ } := by
  rw [wwriteSt, wwrite_at_end _ h]

theorem writeHeaderW_empty (st : WriteState) (initlen : Nat) {sc cc wb : Int}
    (hfile : st.file = ⟨[], 0⟩)
    (hsc : dGet st.headinfo "sample_count".toList = some (.vInt sc))
    (hcc : dGet st.headinfo "channel_count".toList = some (.vInt cc))
    (hsnb : dGet st.headinfo "sample_n_bytes".toList = some (.vInt wb))
    (hclean : cleanDict st.headinfo = true) :
    writeHeaderW st initlen =
      ({ st with
          file := ⟨headerBytes st.headinfo, (headerBytes st.headinfo).length⟩
          datalength := sc * cc * wb
          headerwritten := true }, none) := by
  have hscHas : dHas st.headinfo "sample_count".toList = true := by
    rw [dHas, hsc]
    rfl
  have hm1 : wwriteSt st ("NIST_1A\n   1024\n".toList) =
      { st with file := ⟨"NIST_1A\n   1024\n".toList, 16⟩ } := by
    rw [wwriteSt, hfile, wwrite]
    rfl
  rw [writeHeaderW, hm1]
  simp only [hscHas, if_true, hsc, hcc, hsnb]
  rw [writeFieldsLoop_clean hclean _ (by rfl)]
  simp only []
  simp only [wwriteSt_at_end, List.length_append, List.length_cons, List.length_nil]
  simp only [headerBytes]
  rw [Prod.mk.injEq]
  refine ⟨?_, rfl⟩
  rw [WriteState.mk.injEq]
  refine ⟨?_, rfl, rfl, rfl, rfl, rfl, rfl⟩
  rw [WFile.mk.injEq]
  constructor
  · simp [List.append_assoc, List.length_append]
    omega
  · simp [List.length_append, List.length_replicate]
    omega

theorem dGet_dSetdefault_same {hi : Dict} {k : PyStr} {v : FieldValue}
    (h : dHas hi k = true) : dSetdefault hi k v = hi := by
  rw [dSetdefault, if_pos h]

theorem dGet_dSetdefault_ne (hi : Dict) (k k' : PyStr) (v : FieldValue) (h : k' ≠ k) :
    dGet (dSetdefault hi k v) k' = dGet hi k' := by
  rw [dSetdefault]
  by_cases hh : dHas hi k = true
  · rw [if_pos hh]
  · rw [if_neg hh, dGet_append]
    cases hg : dGet hi k' with
    | some v2 => rfl
    | none =>
      show dGet [(k, v)] k' = none
      rw [dGet, if_neg (fun he => h he.symm)]
      rfl

/-- `writeframesraw` on a fresh sink with complete, clean parameters that
already include an integer `sample_count`: the 1024-byte header followed by
the data lands in the sink, and the counters advance. -/
theorem writeframesrawW_fresh (st : WriteState) (d : PyStr) {s c w : Int}
    (hfile : st.file = ⟨[], 0⟩) (hnw : st.headerwritten = false)
    (hsc : dGet st.headinfo "sample_count".toList = some (.vInt s))
    (hcc : dGet st.headinfo "channel_count".toList = some (.vInt c))
    (hsnb : dGet st.headinfo "sample_n_bytes".toList = some (.vInt w))
    (hrate : codingNeedsRate st.headinfo = true → dHas st.headinfo "sample_rate".toList = true)
    (hclean : cleanDict st.headinfo = true)
    (hfs : c * w ≠ 0) :
    writeframesrawW st d false =
      ({ file := ⟨headerBytes st.headinfo ++ d, (headerBytes st.headinfo).length + d.length⟩, fileOpen := st.fileOpen, headinfo := st.headinfo, nframeswritten := st.nframeswritten + (d.length : Int).fdiv (c * w), datawritten := st.datawritten + d.length, datalength := s * c * w, headerwritten := true }, none) := by
  have hscHas : dHas st.headinfo "sample_count".toList = true := by
    rw [dHas, hsc]
    rfl
  have hccHas : dHas st.headinfo "channel_count".toList = true := by
    rw [dHas, hcc]
    rfl
  have hsnbHas : dHas st.headinfo "sample_n_bytes".toList = true := by
    rw [dHas, hsnb]
    rfl
  have hsd : dSetdefault st.headinfo "sample_count".toList (.vInt st.datalength) =
      st.headinfo := dGet_dSetdefault_same hscHas
  have hrateCond : (codingNeedsRate st.headinfo && !dHas st.headinfo "sample_rate".toList)
      = false := by
    cases hcr : codingNeedsRate st.headinfo with
    | false => rfl
    | true => rw [hrate hcr]; rfl
  rw [writeframesrawW, hsd]
  have hens : ensureHeaderW st d.length =
      ({ st with
          file := ⟨headerBytes st.headinfo, (headerBytes st.headinfo).length⟩
          datalength := s * c * w
          headerwritten := true }, none) := by
    rw [ensureHeaderW, hnw]
    simp only [Bool.false_eq_true, if_false, hccHas, hsnbHas, Bool.not_true, Bool.and_false,
      hrateCond]
    exact writeHeaderW_empty st d.length hfile hsc hcc hsnb hclean
  rw [hens]
  simp only [hcc, hsnb]
  rw [pyMulII]
  simp only [if_neg hfs, Bool.and_false, Bool.false_eq_true, if_false]
  rw [wwriteSt_at_end _ _ (by simp)]

/-- Opening a source whose bytes are a clean serialized header followed by
data parses back exactly the original mapping and leaves the source at
offset 1024. -/
theorem initfp_headerBytes (hi : Dict) (d : PyStr) {c w : Int}
    (hclean : cleanDict hi = true)
    (hnodup : (hi.map Prod.fst).Nodup)
    (hcc : dGet hi "channel_count".toList = some (.vInt c))
    (hsnb : dGet hi "sample_n_bytes".toList = some (.vInt w))
    (hfit : 29 + (linesBytes hi).length ≤ 1024) :
    initfp (mkR (headerBytes hi ++ d)) =
      .ok { file := ⟨headerBytes hi ++ d, 1024, [.read 8, .read 8, .read 1008]⟩,
            headinfo := hi, soundpos := 0, dataSeekNeeded := false,
            offset := 1024, framesize := c * w } := by
  have hsplit : headerBytes hi ++ d = "NIST_1A\n   1024\n".toList ++
      ((linesBytes hi ++ ("end_head\n\n\n\n\n".toList ++
        List.replicate (1024 - (29 + (linesBytes hi).length)) ' ')) ++ d) := by
    simp [headerBytes, List.append_assoc]
  have hbodylen : (linesBytes hi ++ ("end_head\n\n\n\n\n".toList ++
      List.replicate (1024 - (29 + (linesBytes hi).length)) ' ')).length = 1008 := by
    simp only [List.length_append, List.length_replicate]
    rw [show ("end_head\n\n\n\n\n".toList).length = 13 from rfl]
    omega
  have hread3 : pyRead (⟨"NIST_1A\n   1024\n".toList ++
      ((linesBytes hi ++ ("end_head\n\n\n\n\n".toList ++
        List.replicate (1024 - (29 + (linesBytes hi).length)) ' ')) ++ d), 16,
        [.read 8, .read 8]⟩ : RFile) ((1024 : Int) - 16) =
      (⟨"NIST_1A\n   1024\n".toList ++
        ((linesBytes hi ++ ("end_head\n\n\n\n\n".toList ++
          List.replicate (1024 - (29 + (linesBytes hi).length)) ' ')) ++ d), 1024,
          [.read 8, .read 8, .read 1008]⟩,
        linesBytes hi ++ ("end_head\n\n\n\n\n".toList ++
          List.replicate (1024 - (29 + (linesBytes hi).length)) ' ')) := by
    rw [pyRead]
    have hdrop : ("NIST_1A\n   1024\n".toList ++
        ((linesBytes hi ++ ("end_head\n\n\n\n\n".toList ++
          List.replicate (1024 - (29 + (linesBytes hi).length)) ' ')) ++ d)).drop 16 =
        (linesBytes hi ++ ("end_head\n\n\n\n\n".toList ++
          List.replicate (1024 - (29 + (linesBytes hi).length)) ' ')) ++ d := by
      rw [show (16 : Nat) = ("NIST_1A\n   1024\n".toList : PyStr).length from rfl,
        List.drop_left]
    simp only [hdrop]
    have htake : ((linesBytes hi ++ ("end_head\n\n\n\n\n".toList ++
        List.replicate (1024 - (29 + (linesBytes hi).length)) ' ')) ++ d).take
          (((1024 : Int) - 16).toNat) =
        linesBytes hi ++ ("end_head\n\n\n\n\n".toList ++
          List.replicate (1024 - (29 + (linesBytes hi).length)) ' ') := by
      rw [show ((1024 : Int) - 16).toNat = 1008 from rfl, ← hbodylen, List.take_left]
    rw [if_neg (by decide), htake]
    rw [Prod.mk.injEq, RFile.mk.injEq]
    refine ⟨⟨rfl, ?_, rfl⟩, rfl⟩
    rw [hbodylen]
  have hlines : pySplitlines (linesBytes hi ++ ("end_head\n\n\n\n\n".toList ++
      List.replicate (1024 - (29 + (linesBytes hi).length)) ' ')) =
      linesOf hi ++ ("end_head".toList :: splitlinesAux ("\n\n\n\n".toList ++
        List.replicate (1024 - (29 + (linesBytes hi).length)) ' ') []) := by
    rw [pySplitlines, splitlines_linesBytes hclean]
    rw [show ("end_head\n\n\n\n\n".toList ++
        List.replicate (1024 - (29 + (linesBytes hi).length)) ' ') =
      "end_head".toList ++ '\n' :: ("\n\n\n\n".toList ++
        List.replicate (1024 - (29 + (linesBytes hi).length)) ' ') from by
        simp [List.append_assoc]]
    rw [splitlinesAux_line _ _ _ (by decide) (by decide)]
    simp
  rw [hsplit, initfp]
  simp only []
  rw [show pyRead (mkR ("NIST_1A\n   1024\n".toList ++
      ((linesBytes hi ++ ("end_head\n\n\n\n\n".toList ++
        List.replicate (1024 - (29 + (linesBytes hi).length)) ' ')) ++ d))) 8 =
    (⟨"NIST_1A\n   1024\n".toList ++
      ((linesBytes hi ++ ("end_head\n\n\n\n\n".toList ++
        List.replicate (1024 - (29 + (linesBytes hi).length)) ' ')) ++ d), 8,
      [.read 8]⟩, "NIST_1A\n".toList) from rfl]
  rw [if_neg (by simp)]
  rw [show pyRead (⟨"NIST_1A\n   1024\n".toList ++
      ((linesBytes hi ++ ("end_head\n\n\n\n\n".toList ++
        List.replicate (1024 - (29 + (linesBytes hi).length)) ' ')) ++ d), 8,
      [.read 8]⟩ : RFile) 8 =
    (⟨"NIST_1A\n   1024\n".toList ++
      ((linesBytes hi ++ ("end_head\n\n\n\n\n".toList ++
        List.replicate (1024 - (29 + (linesBytes hi).length)) ' ')) ++ d), 16,
      [.read 8, .read 8]⟩, "   1024\n".toList) from rfl]
  rw [show pyInt ("   1024\n".toList) = some 1024 from rfl]
  simp only []
  rw [hread3]
  simp only [hlines]
  rw [parseLines_fields hclean _ _ []]
  rw [dUpdate_nil hi hnodup]
  rw [parseLines, if_pos rfl, hcc, hsnb]
  rfl

theorem headerBytes_length (hi : Dict) (hfit : 29 + (linesBytes hi).length ≤ 1024) :
    (headerBytes hi).length = 1024 := by
  simp only [headerBytes, List.length_append, List.length_replicate]
  rw [show ("NIST_1A\n   1024\n".toList).length = 16 from rfl,
    show ("end_head\n\n\n\n\n".toList).length = 13 from rfl]
  omega

/-- Reading `m` frames from the freshly opened stream returns the whole
data region when it holds exactly `m` frames (little-endian host). -/
theorem readframes_exact (hi : Dict) (d : PyStr) {c w : Int} (m : Int)
    (hsnb : dGet hi "sample_n_bytes".toList = some (.vInt w))
    (hfs : c * w ≠ 0)
    (hlen : (d.length : Int) = m * (c * w))
    (hhead : (headerBytes hi).length = 1024) :
    (readframes { file := ⟨headerBytes hi ++ d, 1024, [.read 8, .read 8, .read 1008]⟩, headinfo := hi, soundpos := 0, dataSeekNeeded := false, offset := 1024, framesize := c * w } m false).exc = none ∧
    (readframes { file := ⟨headerBytes hi ++ d, 1024, [.read 8, .read 8, .read 1008]⟩, headinfo := hi, soundpos := 0, dataSeekNeeded := false, offset := 1024, framesize := c * w } m false).data = d := by
  have hseek : doSeekIfNeeded { file := ⟨headerBytes hi ++ d, 1024, [.read 8, .read 8, .read 1008]⟩, headinfo := hi, soundpos := 0, dataSeekNeeded := false, offset := 1024, framesize := c * w } =
      ({ file := ⟨headerBytes hi ++ d, 1024, [.read 8, .read 8, .read 1008]⟩, headinfo := hi, soundpos := 0, dataSeekNeeded := false, offset := 1024, framesize := c * w }, none) := by
    rw [doSeekIfNeeded, if_neg (by simp)]
  by_cases hm : m = 0
  · subst hm
    have hd : d = [] := by
      have h1 : (d.length : Int) = 0 := by rw [hlen]; ring
      have h2 : d.length = 0 := by exact_mod_cast h1
      exact List.length_eq_zero.mp h2
    subst hd
    rw [readframes, hseek]
    constructor <;> trivial
  · have hnneg : ¬ (m * (c * w) < 0) := by
      rw [← hlen]
      omega
    have hdrop : (headerBytes hi ++ d).drop 1024 = d := by
      rw [← hhead, List.drop_left]
    have htoNat : (m * (c * w)).toNat = d.length := by
      rw [← hlen]
      simp
    rw [readframes, hseek]
    simp only [if_neg hm]
    rw [pyRead]
    simp only [hdrop, if_neg hnneg, htoNat, List.take_length]
    rw [hsnb]
    simp only [Bool.and_false, Bool.false_eq_true, if_false, if_neg hfs]
    constructor <;> trivial

/-- C2 core: the full write-then-read round trip over clean parameters. -/
theorem roundTrip_clean (hi : Dict) (d : PyStr) {s c w : Int} (m : Int)
    (hnodup : (hi.map Prod.fst).Nodup)
    (hclean : cleanDict hi = true)
    (hcc : dGet hi "channel_count".toList = some (.vInt c))
    (hsnb : dGet hi "sample_n_bytes".toList = some (.vInt w))
    (hsc : dGet hi "sample_count".toList = some (.vInt s))
    (hrate : codingNeedsRate hi = true → dHas hi "sample_rate".toList = true)
    (hfs : c * w ≠ 0)
    (hfit : 29 + (linesBytes hi).length ≤ 1024)
    (hlen : (d.length : Int) = m * (c * w)) :
    roundTrip hi d m = some (hi, d) := by
  have hset : setparamsW freshW hi = ({ file := ⟨[], 0⟩, fileOpen := true, headinfo := hi, nframeswritten := 0, datawritten := 0, datalength := 0, headerwritten := false }, none) := by
    rw [setparamsW, if_neg (by simp [freshW])]
    rw [show dUpdate freshW.headinfo hi = dUpdate [] hi from rfl, dUpdate_nil hi hnodup]
    rfl
  have hwrite := writeframesrawW_fresh { file := ⟨[], 0⟩, fileOpen := true, headinfo := hi, nframeswritten := 0, datawritten := 0, datalength := 0, headerwritten := false } d
    (by rfl) (by rfl) hsc hcc hsnb hrate hclean hfs
  have hopen := initfp_headerBytes hi d hclean hnodup hcc hsnb hfit
  have hread := readframes_exact hi d m hsnb hfs hlen (headerBytes_length hi hfit)
  rw [roundTrip, hset]
  simp only []
  rw [hwrite]
  simp only []
  rw [hopen]
  simp only []
  obtain ⟨hexc, hdata⟩ := hread
  rcases horf : readframes { file := ⟨headerBytes hi ++ d, 1024, [.read 8, .read 8, .read 1008]⟩, headinfo := hi, soundpos := 0, dataSeekNeeded := false, offset := 1024, framesize := c * w } m false with ⟨st2, exc2, data2⟩
  rw [horf] at hexc hdata
  have h1 : exc2 = none := hexc
  have h2 : data2 = d := hdata
  subst h1
  subst h2
  rfl

/-! ### Universal behavior lemmas for the position and zero-read claims -/

theorem setpos_in_range (st : SphereRead) {sc : Int} (p : Int)
    (hsc : dGet st.headinfo "sample_count".toList = some (.vInt sc))
    (hp0 : ¬ p < 0) (hpsc : ¬ p > sc) :
    setpos st p = ({ st with soundpos := p, dataSeekNeeded := true }, none) := by
  rw [setpos, if_neg hp0, hsc]
  simp only [if_neg hpsc]

theorem setpos_out_of_range (st : SphereRead) {sc : Int} (p : Int)
    (hsc : dGet st.headinfo "sample_count".toList = some (.vInt sc))
    (hp : p < 0 ∨ p > sc) :
    setpos st p = (st, some (.sphereError "position not in range")) := by
  rcases hp with hp | hp
  · rw [setpos, if_pos hp]
  · by_cases hp0 : p < 0
    · rw [setpos, if_pos hp0]
    · rw [setpos, if_neg hp0, hsc]
      simp only [if_pos hp]

theorem readframes_at_end (st : SphereRead) {v : FieldValue} (n : Int)
    (hseek : st.dataSeekNeeded = true)
    (hsp : 0 ≤ st.soundpos) (hfs : 0 < st.framesize)
    (hsnb : dGet st.headinfo "sample_n_bytes".toList = some v)
    (hbound : (st.file.content.length : Int) ≤ (st.offset : Int) + st.soundpos * st.framesize) :
    (readframes st n false).data = [] ∧ (readframes st n false).exc = none := by
  have hple : (0 : Int) ≤ st.soundpos * st.framesize := mul_nonneg hsp (le_of_lt hfs)
  have hfs0 : st.framesize ≠ 0 := ne_of_gt hfs
  by_cases hp : st.soundpos * st.framesize = 0
  · have hseek2 : doSeekIfNeeded st = ({ st with file := pySeekAbs st.file st.offset, dataSeekNeeded := false }, none) := by
      rw [doSeekIfNeeded, if_pos hseek, if_neg (by simp [hp])]
    by_cases hn : n = 0
    · subst hn
      rw [readframes, hseek2]
      exact ⟨rfl, rfl⟩
    · have hdrop : st.file.content.drop st.offset = [] := by
        refine List.drop_eq_nil_of_le ?_
        have : (st.file.content.length : Int) ≤ (st.offset : Int) := by
          rw [hp] at hbound
          omega
        exact_mod_cast this
      rw [readframes, hseek2]
      simp only [if_neg hn]
      rw [pyRead]
      simp only [pySeekAbs, hdrop, List.take_nil, hsnb]
      simp only [Bool.and_false, Bool.false_eq_true, if_false, if_neg hfs0]
      constructor
      · split <;> rfl
      · trivial
  · have htgt : ¬ ((st.file.pos : Int) + st.offset + st.soundpos * st.framesize -
        st.file.pos < 0) := by omega
    have hrel : pySeekRel (pySeekAbs st.file st.offset) (st.soundpos * st.framesize) =
        .ok { st.file with pos := ((st.offset : Int) + st.soundpos * st.framesize).toNat, log := st.file.log ++ [.seek st.offset 0, .seek (st.soundpos * st.framesize) 1] } := by
      rw [pySeekRel]
      simp only [pySeekAbs]
      rw [if_neg (by omega)]
      simp [List.append_assoc]
    have hseek2 : doSeekIfNeeded st = ({ st with file := { st.file with pos := ((st.offset : Int) + st.soundpos * st.framesize).toNat, log := st.file.log ++ [.seek st.offset 0, .seek (st.soundpos * st.framesize) 1] }, dataSeekNeeded := false }, none) := by
      rw [doSeekIfNeeded, if_pos hseek, if_pos hp, hrel]
    by_cases hn : n = 0
    · subst hn
      rw [readframes, hseek2]
      exact ⟨rfl, rfl⟩
    · have hdrop : st.file.content.drop (((st.offset : Int) +
          st.soundpos * st.framesize).toNat) = [] := by
        refine List.drop_eq_nil_of_le ?_
        omega
      rw [readframes, hseek2]
      simp only [if_neg hn]
      rw [pyRead]
      simp only [hdrop, List.take_nil, hsnb]
      simp only [Bool.and_false, Bool.false_eq_true, if_false, if_neg hfs0]
      constructor
      · split <;> rfl
      · trivial

/-- `readframes(0)`: empty result, no exception, position unchanged, source
contents unchanged; without a pending reseek the whole stream is untouched;
with one pending, the log grows only by seek operations. -/
theorem readframes_zero (st : SphereRead) (b : Bool)
    (hsp : 0 ≤ st.soundpos) (hfs : 0 ≤ st.framesize) :
    (readframes st 0 b).data = [] ∧
    (readframes st 0 b).exc = none ∧
    (readframes st 0 b).st.soundpos = st.soundpos ∧
    (readframes st 0 b).st.file.content = st.file.content ∧
    (st.dataSeekNeeded = false → (readframes st 0 b).st = st) ∧
    (∃ ops, (readframes st 0 b).st.file.log = st.file.log ++ ops ∧
      ∀ op ∈ ops, ∃ t wh, op = FOp.seek t wh) := by
  by_cases hseek : st.dataSeekNeeded = true
  · have hple : (0 : Int) ≤ st.soundpos * st.framesize := mul_nonneg hsp hfs
    by_cases hp : st.soundpos * st.framesize = 0
    · have hseek2 : doSeekIfNeeded st = ({ st with file := pySeekAbs st.file st.offset, dataSeekNeeded := false }, none) := by
        rw [doSeekIfNeeded, if_pos hseek, if_neg (by simp [hp])]
      rw [readframes, hseek2]
      refine ⟨rfl, rfl, rfl, rfl, ?_, [FOp.seek st.offset 0], rfl, ?_⟩
      · intro hf
        rw [hf] at hseek
        exact Bool.noConfusion hseek
      · intro op hop
        simp only [List.mem_singleton] at hop
        exact ⟨st.offset, 0, hop⟩
    · have hrel : pySeekRel (pySeekAbs st.file st.offset) (st.soundpos * st.framesize) =
          .ok { st.file with pos := ((st.offset : Int) + st.soundpos * st.framesize).toNat, log := st.file.log ++ [.seek st.offset 0, .seek (st.soundpos * st.framesize) 1] } := by
        rw [pySeekRel]
        simp only [pySeekAbs]
        rw [if_neg (by omega)]
        simp [List.append_assoc]
      have hseek2 : doSeekIfNeeded st = ({ st with file := { st.file with pos := ((st.offset : Int) + st.soundpos * st.framesize).toNat, log := st.file.log ++ [.seek st.offset 0, .seek (st.soundpos * st.framesize) 1] }, dataSeekNeeded := false }, none) := by
        rw [doSeekIfNeeded, if_pos hseek, if_pos hp, hrel]
      rw [readframes, hseek2]
      refine ⟨rfl, rfl, rfl, rfl, ?_, [FOp.seek st.offset 0,
        FOp.seek (st.soundpos * st.framesize) 1], rfl, ?_⟩
      · intro hf
        rw [hf] at hseek
        exact Bool.noConfusion hseek
      · intro op hop
        rcases List.mem_cons.mp hop with h1 | h1
        · exact ⟨st.offset, 0, h1⟩
        · simp only [List.mem_singleton] at h1
          exact ⟨st.soundpos * st.framesize, 1, h1⟩
  · have hf : st.dataSeekNeeded = false := by
      cases hd : st.dataSeekNeeded
      · rfl
      · exact absurd hd hseek
    have hseek2 : doSeekIfNeeded st = (st, none) := by
      rw [doSeekIfNeeded, if_neg hseek]
    rw [readframes, hseek2]
    exact ⟨rfl, rfl, rfl, rfl, fun _ => rfl, [], by simp, by simp⟩

theorem readframes_ok_no_seek (st : SphereRead) {v : FieldValue} (n : Int)
    (hseek : st.dataSeekNeeded = false)
    (hsnb : dGet st.headinfo "sample_n_bytes".toList = some v)
    (hfs : st.framesize ≠ 0) :
    (readframes st n false).exc = none := by
  have hseek2 : doSeekIfNeeded st = (st, none) := by
    rw [doSeekIfNeeded, if_neg (by simp [hseek])]
  by_cases hn : n = 0
  · subst hn
    rw [readframes, hseek2]
    rfl
  · rw [readframes, hseek2]
    simp only [if_neg hn]
    rw [pyRead]
    simp only [hsnb, Bool.and_false, Bool.false_eq_true, if_false, if_neg hfs]

theorem dHas_setdefault_ne (hi : Dict) (k k' : PyStr) (v : FieldValue) (h : k' ≠ k) :
    dHas (dSetdefault hi k v) k' = dHas hi k' := by
  rw [dHas, dGet_dSetdefault_ne hi k k' v h, dHas]

theorem codingNeedsRate_setdefault (hi : Dict) (v : FieldValue) :
    codingNeedsRate (dSetdefault hi "sample_count".toList v) = codingNeedsRate hi := by
  rw [codingNeedsRate, codingNeedsRate,
    dGet_dSetdefault_ne hi _ _ v (by decide)]

/-- The three missing-parameter failures of `writeframesraw`: each raises its
own `Error` with the sink untouched; only the in-memory mapping gained the
`setdefault`-ed `sample_count`. -/
theorem writeframesrawW_missing (st : WriteState) (d : PyStr) (b : Bool)
    (hnw : st.headerwritten = false) :
    (dHas st.headinfo "channel_count".toList = false →
      writeframesrawW st d b = ({ st with headinfo := dSetdefault st.headinfo "sample_count".toList (.vInt st.datalength) }, some (.sphereError "# channels not specified"))) ∧
    (dHas st.headinfo "channel_count".toList = true →
     dHas st.headinfo "sample_n_bytes".toList = false →
      writeframesrawW st d b = ({ st with headinfo := dSetdefault st.headinfo "sample_count".toList (.vInt st.datalength) }, some (.sphereError "# sample bytes not specified"))) ∧
    (dHas st.headinfo "channel_count".toList = true →
     dHas st.headinfo "sample_n_bytes".toList = true →
     codingNeedsRate st.headinfo = true →
     dHas st.headinfo "sample_rate".toList = false →
      writeframesrawW st d b = ({ st with headinfo := dSetdefault st.headinfo "sample_count".toList (.vInt st.datalength) }, some (.sphereError "sampling rate not specified"))) := by
  have hhw : ({ st with headinfo := dSetdefault st.headinfo "sample_count".toList (.vInt st.datalength) } : WriteState).headerwritten = false := hnw
  have hcc2 : dHas (dSetdefault st.headinfo "sample_count".toList (.vInt st.datalength)) "channel_count".toList = dHas st.headinfo "channel_count".toList :=
    dHas_setdefault_ne _ _ _ _ (by decide)
  have hsnb2 : dHas (dSetdefault st.headinfo "sample_count".toList (.vInt st.datalength)) "sample_n_bytes".toList = dHas st.headinfo "sample_n_bytes".toList :=
    dHas_setdefault_ne _ _ _ _ (by decide)
  have hrate2 : dHas (dSetdefault st.headinfo "sample_count".toList (.vInt st.datalength)) "sample_rate".toList = dHas st.headinfo "sample_rate".toList :=
    dHas_setdefault_ne _ _ _ _ (by decide)
  have hcr2 := codingNeedsRate_setdefault st.headinfo (.vInt st.datalength)
  refine ⟨?_, ?_, ?_⟩
  · intro hcc
    rw [writeframesrawW, ensureHeaderW, hhw]
    simp only [Bool.false_eq_true, if_false, hcc2, hcc, Bool.not_false, if_true]
  · intro hcc hsnb
    rw [writeframesrawW, ensureHeaderW, hhw]
    simp only [Bool.false_eq_true, if_false, hcc2, hcc, hsnb2, hsnb, Bool.not_false,
      Bool.not_true, if_true]
  · intro hcc hsnb hcr hrate
    rw [writeframesrawW, ensureHeaderW, hhw]
    simp only [Bool.false_eq_true, if_false, hcc2, hcc, hsnb2, hsnb, hrate2, hrate, hcr2, hcr,
      Bool.not_false, Bool.not_true, Bool.and_true, if_true]

/-! ### Claim theorems -/

/-- C1: the deferred patch does NOT restore the actual frame count.  With
parameters `{channel_count: 1, sample_n_bytes: 1, sample_rate: 8000}` and no
declared `sample_count`, writing the two whole frames `"AB"` and closing
completes without error and records 2 frames written — but re-opening the
sink shows `sample_count = 0`: `writeframesraw`'s `setdefault` inserts
`sample_count = 0` before `_write_header` runs, so the `not in` guard in
`_write_header` never recomputes it and `close`'s re-serialization writes
the stale 0 instead of `bytes_written / frame_size = 2`. -/
theorem c1_close_leaves_stale_sample_count :
    c1Run.2 = none ∧ c1Run.1.nframeswritten = 2 ∧
    parsedSampleCount c1Run.1.file.content = some (.vInt 0) :=
  ⟨rfl, rfl, rfl⟩

/-- C2 (counterexample): the round trip does not reproduce a valid mapping
that lacks `sample_count` — the write path injects a `sample_count: 0`
field, so the parsed mapping has an extra key. -/
theorem c2_roundtrip_without_sample_count_cex :
    roundTrip c2BadInfo ("A".toList) 1 ≠ some (c2BadInfo, "A".toList) := by
  decide

/-- C2 (amended): the write-then-read round trip reproduces the mapping
exactly (same keys, values, order) and the data exactly, provided the
mapping also declares `sample_count` as an integer, `channel_count` and
`sample_n_bytes` are integers with a non-zero product, keys are unique and
line-transportable, values are clean (ASCII, no `;`/CR/LF, no trailing
whitespace; reals by canonical text), `sample_rate` is present when the
coding requires it, the encoded header fits in 1024 bytes, the data is a
whole number of frames, and the host is little-endian. -/
theorem c2_roundtrip_reproduces_header_and_data (hi : Dict) (d : PyStr) {s c w : Int}
    (m : Int)
    (hnodup : (hi.map Prod.fst).Nodup)
    (hclean : cleanDict hi = true)
    (hcc : dGet hi "channel_count".toList = some (.vInt c))
    (hsnb : dGet hi "sample_n_bytes".toList = some (.vInt w))
    (hsc : dGet hi "sample_count".toList = some (.vInt s))
    (hrate : codingNeedsRate hi = true → dHas hi "sample_rate".toList = true)
    (hfs : c * w ≠ 0)
    (hfit : 29 + (linesBytes hi).length ≤ 1024)
    (hlen : (d.length : Int) = m * (c * w)) :
    roundTrip hi d m = some (hi, d) :=
  roundTrip_clean hi d m hnodup hclean hcc hsnb hsc hrate hfs hfit hlen

/-- C2 witness: the round trip at a concrete clean mapping with
`sample_count` present and two 1-byte frames. -/
theorem c2_roundtrip_witness :
    roundTrip c2GoodInfo ("AB".toList) 2 = some (c2GoodInfo, "AB".toList) :=
  @c2_roundtrip_reproduces_header_and_data c2GoodInfo ("AB".toList) 2 1 1 2
    (by decide) (by decide) (by decide) (by decide) (by decide)
    (by decide) (by decide) (by decide) (by decide)

/-- C3 (counterexample): serializing the mapping with the insertion order
exactly as the claim writes it (`channel_count` first) does not produce the
claimed byte sequence, because fields are emitted in insertion order. -/
theorem c3_listed_order_bytes_differ :
    (serializeVia c3MappingAsWritten).2 = none ∧
    (serializeVia c3MappingAsWritten).1.file.content.take c3ExpectedPrefix.length ≠
      c3ExpectedPrefix :=
  ⟨rfl, by decide⟩

/-- C3 (amended): with `database_id` inserted first — the insertion order
matching the claimed bytes — serialization produces exactly the claimed
sequence, followed by four more newlines and 893 spaces of padding, 1024
bytes in total. -/
theorem c3_db_first_insertion_exact_bytes :
    (serializeVia c3MappingDbFirst).2 = none ∧
    (serializeVia c3MappingDbFirst).1.file.content =
      c3ExpectedPrefix ++ "\n\n\n\n".toList ++ List.replicate 893 ' ' ∧
    (serializeVia c3MappingDbFirst).1.file.content.length = 1024 :=
  ⟨rfl, eq_of_beq (by rfl), rfl⟩

/-- C4: `getparams` does NOT fail when only one of the two required keys is
missing.  With `channel_count` present and `sample_n_bytes` absent it
returns the mapping, because both membership checks in the source
(`all(key not in ...)` and the `and` of two `not in`s) fire only when both
keys are missing; the error does fire on an empty mapping. -/
theorem c4_getparams_accepts_single_missing_key :
    dHas c4Info ("sample_n_bytes".toList) = false ∧
    getparamsW c4Info = .ok c4Info ∧
    getparamsW [] = .error (.sphereError
      "not all parameters set (sample_n_bytes, channel_count are required.)") :=
  ⟨rfl, rfl, rfl⟩

/-- C5: field-decode failures are language-level exceptions, not the
codec's `Error`.  A line with fewer than three tokens fails with
`ValueError` (tuple unpacking), and an unknown type flag fails with
`TypeError` — the `raise Error('Invalid type flag in header: ' + line)`
statement concatenates `str` with `bytes` and dies before the `Error` is
constructed; `initfp` on a file with such a line propagates the
`TypeError`. -/
theorem c5_decode_errors_are_language_level :
    decodeFieldLine ("foo".toList) = .error .valueError ∧
    decodeFieldLine ("foo -x 1".toList) = .error .typeError ∧
    initfp (mkR c5File) = .error .typeError :=
  ⟨rfl, rfl, rfl⟩

/-- C6 (counterexample): on a stream whose source holds more data than
`sample_count` declares (`sample_count = 1`, two 1-byte frames in the
file), `SetPos(sample_count)` succeeds but the following read returns a
byte, not an empty result. -/
theorem c6_read_after_setpos_end_returns_data :
    dGet c6Stream.headinfo ("sample_count".toList) = some (.vInt 1) ∧
    (setpos c6Stream 1).2 = none ∧
    (readframes (setpos c6Stream 1).1 1 false).exc = none ∧
    (readframes (setpos c6Stream 1).1 1 false).data = "B".toList ∧
    (readframes (setpos c6Stream 1).1 1 false).data ≠ [] :=
  ⟨rfl, rfl, rfl, rfl, by decide⟩

/-- C7: byte-order normalization is broken on big-endian hosts.  On the
`c7File` stream (`sample_n_bytes = 2`), a read with the host big-endian
raises `AttributeError` — `Sphere_read` never assigns the `_sampwidth`
attribute the swap call needs (only the `WaveLike_read` subclass does) —
while on a little-endian host the same read returns the bytes unmodified. -/
theorem c7_bigendian_read_attribute_error :
    (readframes c7Stream 1 true).exc = some (.attributeError "_sampwidth") ∧
    (readframes c7Stream 1 false).exc = none ∧
    (readframes c7Stream 1 false).data = "AB".toList :=
  ⟨rfl, rfl, rfl⟩

/-- C8 (counterexample): with a deferred reseek pending (after a successful
`setpos`), `readframes(0)` DOES touch the source: it performs the pending
seeks before the `nframes == 0` early return, so the operation log grows. -/
theorem c8_zero_read_seeks_when_reseek_pending :
    c8Pending.dataSeekNeeded = true ∧
    (readframes c8Pending 0 false).exc = none ∧
    (readframes c8Pending 0 false).data = [] ∧
    (readframes c8Pending 0 false).st.file.log ≠ c8Pending.file.log :=
  ⟨rfl, rfl, rfl, by decide⟩

/-- C6 (amended): on every open stream whose header declares an integer
`sample_count`, `setpos(p)` fails with the out-of-range `Error` exactly
when `p < 0` or `p > sample_count`; otherwise it succeeds, touches the
source in no way, and a following `tell` returns `p`; and — provided the
data region holds at most `sample_count` frames — any read after
`setpos(sample_count)` returns zero bytes. -/
theorem c6_setpos_range_and_end_read (st : SphereRead) {sc : Int}
    (hsc : dGet st.headinfo "sample_count".toList = some (.vInt sc))
    (hsnb : ∃ v, dGet st.headinfo "sample_n_bytes".toList = some v)
    (hsp : 0 ≤ sc) (hfs : 0 < st.framesize)
    (hbound : (st.file.content.length : Int) ≤ (st.offset : Int) + sc * st.framesize) :
    (∀ p : Int, (setpos st p).2 = some (.sphereError "position not in range") ↔
      (p < 0 ∨ p > sc)) ∧
    (∀ p : Int, ¬(p < 0 ∨ p > sc) →
      setpos st p = ({ st with soundpos := p, dataSeekNeeded := true }, none) ∧
      tellR (setpos st p).1 = p ∧ (setpos st p).1.file = st.file) ∧
    (∀ n : Int, (readframes (setpos st sc).1 n false).data = [] ∧
                (readframes (setpos st sc).1 n false).exc = none) := by
  obtain ⟨v, hv⟩ := hsnb
  have hin : setpos st sc = ({ st with soundpos := sc, dataSeekNeeded := true }, none) :=
    setpos_in_range st sc hsc (by omega) (by omega)
  refine ⟨?_, ?_, ?_⟩
  · intro p
    constructor
    · intro herr
      by_contra hout
      have := setpos_in_range st p hsc (fun h => hout (Or.inl h)) (fun h => hout (Or.inr h))
      rw [this] at herr
      exact Option.noConfusion herr
    · intro hout
      rw [setpos_out_of_range st p hsc hout]
  · intro p hout
    have := setpos_in_range st p hsc (fun h => hout (Or.inl h)) (fun h => hout (Or.inr h))
    rw [this]
    exact ⟨rfl, rfl, rfl⟩
  · intro n
    rw [hin]
    exact readframes_at_end _ n rfl hsp hfs hv hbound

/-- C6 witness: concrete stream with `sample_count = 2` and exactly two
1-byte frames of data. -/
theorem c6_setpos_range_witness :
    (setpos c6ExactStream 2).2 = none ∧
    (readframes (setpos c6ExactStream 2).1 1 false).data = [] ∧
    (setpos c6ExactStream 3).2 = some (.sphereError "position not in range") ∧
    (setpos c6ExactStream (-1)).2 = some (.sphereError "position not in range") := by
  obtain ⟨hiff, hin, hread⟩ := @c6_setpos_range_and_end_read c6ExactStream 2
    (by decide) ⟨.vInt 1, by decide⟩ (by decide) (by decide) (by decide)
  refine ⟨?_, (hread 1).1, (hiff 3).mpr (by omega), (hiff (-1)).mpr (by omega)⟩
  rw [(hin 2 (by omega)).1]

/-- C8 (amended): `readframes(0)` returns an empty result, raises nothing,
leaves the position and the source contents unchanged, and performs no
read; when no reseek is pending it touches nothing at all, and when one is
pending the only operations it issues are the deferred seeks. -/
theorem c8_zero_read_effects (st : SphereRead) (b : Bool)
    (hsp : 0 ≤ st.soundpos) (hfs : 0 ≤ st.framesize) :
    (readframes st 0 b).data = [] ∧
    (readframes st 0 b).exc = none ∧
    (readframes st 0 b).st.soundpos = st.soundpos ∧
    (readframes st 0 b).st.file.content = st.file.content ∧
    (st.dataSeekNeeded = false → (readframes st 0 b).st = st) ∧
    (∃ ops, (readframes st 0 b).st.file.log = st.file.log ++ ops ∧
      ∀ op ∈ ops, ∃ t wh, op = FOp.seek t wh) :=
  readframes_zero st b hsp hfs

/-- C8 witness: the zero-length read on the pending-reseek stream. -/
theorem c8_zero_read_witness :
    (readframes c8Pending 0 false).data = [] ∧
    (readframes c8Pending 0 false).exc = none ∧
    (readframes c8Pending 0 false).st.soundpos = c8Pending.soundpos := by
  obtain ⟨h1, h2, h3, _⟩ := c8_zero_read_effects c8Pending false (by decide) (by decide)
  exact ⟨h1, h2, h3⟩

/-- C10: on a successfully opened stream whose header has no `sample_count`
field, `setpos` fails for every position — with a `KeyError` from the
unconditional `sample_count` lookup for `p ≥ 0`, and with the ordinary
range `Error` for `p < 0` (the `p < 0` test short-circuits) — while `tell`
and (on a little-endian host, with the stream positioned) `readframes`
remain usable. -/
theorem c10_setpos_needs_sample_count (st : SphereRead)
    (hns : dGet st.headinfo "sample_count".toList = none) :
    (∀ p : Int, (setpos st p).2 ≠ none) ∧
    (∀ p : Int, 0 ≤ p → setpos st p = (st, some (.keyError "sample_count"))) ∧
    (∀ p : Int, p < 0 → setpos st p = (st, some (.sphereError "position not in range"))) ∧
    tellR st = st.soundpos ∧
    (st.dataSeekNeeded = false → st.framesize ≠ 0 →
      (∃ v, dGet st.headinfo "sample_n_bytes".toList = some v) →
      ∀ n : Int, (readframes st n false).exc = none) := by
  have hge : ∀ p : Int, 0 ≤ p → setpos st p = (st, some (.keyError "sample_count")) := by
    intro p hp
    rw [setpos, if_neg (by omega), hns]
  have hlt : ∀ p : Int, p < 0 →
      setpos st p = (st, some (.sphereError "position not in range")) := by
    intro p hp
    rw [setpos, if_pos hp]
  refine ⟨?_, hge, hlt, rfl, ?_⟩
  · intro p
    by_cases hp : p < 0
    · rw [hlt p hp]
      simp
    · rw [hge p (by omega)]
      simp
  · intro hseek hfs hv n
    obtain ⟨v, hv2⟩ := hv
    exact readframes_ok_no_seek st n hseek hv2 hfs

/-- C10 witness: the concrete `c10File` stream (header without
`sample_count`). -/
theorem c10_setpos_needs_sample_count_witness :
    setpos c10Stream 0 = (c10Stream, some (.keyError "sample_count")) ∧
    setpos c10Stream (-1) = (c10Stream, some (.sphereError "position not in range")) ∧
    (readframes c10Stream 1 false).exc = none := by
  obtain ⟨h0, hge, hlt, ht, hr⟩ := c10_setpos_needs_sample_count c10Stream (by decide)
  exact ⟨hge 0 (by omega), hlt (-1) (by omega),
    hr (by decide) (by decide) ⟨.vInt 1, by decide⟩ 1⟩

/-- C9: missing-parameter atomicity on first write.  If the header was not
yet written and `channel_count`, `sample_n_bytes`, or — when the coding is
absent or pcm/ulaw — `sample_rate` is missing, `writeframesraw` fails with
the corresponding specific `Error` and the sink is byte-for-byte untouched
(only the in-memory mapping gained the `setdefault`-ed `sample_count`);
`setparams` is still permitted afterwards, and once the merged parameters
are complete, clean integers, a retry of the same write succeeds. -/
theorem c9_missing_param_atomicity (st : WriteState) (d : PyStr) (b : Bool)
    (hnw : st.headerwritten = false) (hdw : st.datawritten = 0)
    (hmiss : dHas st.headinfo "channel_count".toList = false ∨
             dHas st.headinfo "sample_n_bytes".toList = false ∨
             (codingNeedsRate st.headinfo = true ∧
              dHas st.headinfo "sample_rate".toList = false)) :
    (writeframesrawW st d b).1.file = st.file ∧
    (writeframesrawW st d b).1.datawritten = 0 ∧
    (writeframesrawW st d b).1.headerwritten = false ∧
    (dHas st.headinfo "channel_count".toList = false →
      (writeframesrawW st d b).2 = some (.sphereError "# channels not specified")) ∧
    (dHas st.headinfo "channel_count".toList = true →
     dHas st.headinfo "sample_n_bytes".toList = false →
      (writeframesrawW st d b).2 = some (.sphereError "# sample bytes not specified")) ∧
    (dHas st.headinfo "channel_count".toList = true →
     dHas st.headinfo "sample_n_bytes".toList = true →
     dHas st.headinfo "sample_rate".toList = false →
      (writeframesrawW st d b).2 = some (.sphereError "sampling rate not specified")) ∧
    (∀ p : Dict, (setparamsW (writeframesrawW st d b).1 p).2 = none) ∧
    (∀ p : Dict, ∀ su cu wu : Int, st.file = ⟨[], 0⟩ →
      dGet (setparamsW (writeframesrawW st d b).1 p).1.headinfo "sample_count".toList =
        some (.vInt su) →
      dGet (setparamsW (writeframesrawW st d b).1 p).1.headinfo "channel_count".toList =
        some (.vInt cu) →
      dGet (setparamsW (writeframesrawW st d b).1 p).1.headinfo "sample_n_bytes".toList =
        some (.vInt wu) →
      (codingNeedsRate (setparamsW (writeframesrawW st d b).1 p).1.headinfo = true →
        dHas (setparamsW (writeframesrawW st d b).1 p).1.headinfo "sample_rate".toList = true) →
      cleanDict (setparamsW (writeframesrawW st d b).1 p).1.headinfo = true →
      cu * wu ≠ 0 →
      (writeframesrawW (setparamsW (writeframesrawW st d b).1 p).1 d false).2 = none) := by
  obtain ⟨herr1, herr2, herr3⟩ := writeframesrawW_missing st d b hnw
  have hout : writeframesrawW st d b =
      ({ st with headinfo := dSetdefault st.headinfo "sample_count".toList (.vInt st.datalength) }, (writeframesrawW st d b).2) := by
    rcases hmiss with hm | hm | hm
    · rw [herr1 hm]
    · by_cases hcc : dHas st.headinfo "channel_count".toList = true
      · rw [herr2 hcc hm]
      · rw [herr1 (by rw [Bool.not_eq_true] at hcc; exact hcc)]
    · by_cases hcc : dHas st.headinfo "channel_count".toList = true
      · by_cases hsb : dHas st.headinfo "sample_n_bytes".toList = true
        · rw [herr3 hcc hsb hm.1 hm.2]
        · rw [herr2 hcc (by rw [Bool.not_eq_true] at hsb; exact hsb)]
      · rw [herr1 (by rw [Bool.not_eq_true] at hcc; exact hcc)]
  have hfile : (writeframesrawW st d b).1.file = st.file := by rw [hout]
  have hdw2 : (writeframesrawW st d b).1.datawritten = 0 := by rw [hout]; exact hdw
  have hhw2 : (writeframesrawW st d b).1.headerwritten = false := by rw [hout]; exact hnw
  have hsetp : ∀ p : Dict, setparamsW (writeframesrawW st d b).1 p =
      ({ (writeframesrawW st d b).1 with headinfo := dUpdate (writeframesrawW st d b).1.headinfo p }, none) := by
    intro p
    rw [setparamsW, if_neg (by rw [hdw2]; omega)]
  refine ⟨hfile, hdw2, hhw2, ?_, ?_, ?_, ?_, ?_⟩
  · intro hm
    rw [herr1 hm]
  · intro hcc hm
    rw [herr2 hcc hm]
  · intro hcc hsb hm
    rcases hmiss with h | h | h
    · rw [h] at hcc
      exact Bool.noConfusion hcc
    · rw [h] at hsb
      exact Bool.noConfusion hsb
    · rw [herr3 hcc hsb h.1 hm]
  · intro p
    rw [hsetp p]
  · intro p su cu wu hf0 hsu hcu hwu hrateu hcleanu hfsu
    have hfile2 : (setparamsW (writeframesrawW st d b).1 p).1.file = ⟨[], 0⟩ := by
      rw [hsetp p]
      rw [show ({ (writeframesrawW st d b).1 with headinfo := dUpdate (writeframesrawW st d b).1.headinfo p } : WriteState).file = (writeframesrawW st d b).1.file from rfl, hfile, hf0]
    have hhw3 : (setparamsW (writeframesrawW st d b).1 p).1.headerwritten = false := by
      rw [hsetp p]
      exact hhw2
    rw [writeframesrawW_fresh (setparamsW (writeframesrawW st d b).1 p).1 d hfile2 hhw3
      hsu hcu hwu hrateu hcleanu hfsu]

/-- C9 witness: `c9Start` (both widths set, `sample_rate` missing), two
1-byte frames; the failure is the specific sampling-rate error with the
sink untouched, and the retry after supplying `sample_rate` succeeds. -/
theorem c9_missing_param_witness :
    (writeframesrawW c9Start ("AB".toList) false).2 =
      some (.sphereError "sampling rate not specified") ∧
    (writeframesrawW c9Start ("AB".toList) false).1.file = c9Start.file ∧
    (writeframesrawW (setparamsW (writeframesrawW c9Start ("AB".toList) false).1
      [("sample_rate".toList, .vInt 8000)]).1 ("AB".toList) false).2 = none := by
  obtain ⟨hfile, hdw2, hhw2, he1, he2, he3, hsetp, hretry⟩ :=
    c9_missing_param_atomicity c9Start ("AB".toList) false (by decide) (by decide)
      (Or.inr (Or.inr ⟨by decide, by decide⟩))
  exact ⟨he3 (by decide) (by decide) (by decide), hfile,
    hretry [("sample_rate".toList, .vInt 8000)] 0 1 1 (by decide) (by decide) (by decide)
      (by decide) (by decide) (by decide) (by decide)⟩
